import Mathlib

set_option maxHeartbeats 1000000

/-!
Verification development for the Paul Chek blog scraper
(`src/scrapePaulChekBlog.ts`).  The TypeScript source is shallowly
embedded: strings are `List Char`, the stateful section crawl becomes
explicit state passing, and the two JavaScript-runtime facilities the
code relies on (`new URL` resolution and `new Date` parsing) are
parameters, since their implementations live in the JS engine, not in
this repository.
-/

namespace PaulChek

/-- ASCII whitespace recognised by the model of JS `String.prototype.trim`
and of the regex class `\s` (the source only ever feeds it ASCII text). -/
def isJsWs (c : Char) : Bool :=
  c == ' ' || c == '\t' || c == '\n' || c == '\r' || c == '\x0b' || c == '\x0c'

/-- Drop trailing whitespace characters (right half of JS `trim`). -/
def trimRight : List Char → List Char
  | [] => []
  | c :: cs =>
    let r := trimRight cs
    if r.isEmpty && isJsWs c then [] else c :: r

/-- Model of JS `String.prototype.trim`: drop leading and trailing whitespace. -/
def trimL (s : List Char) : List Char :=
  trimRight (s.dropWhile isJsWs)

/-- `startsWithL pat s` models JS `s.startsWith(pat)`. -/
def startsWithL : List Char → List Char → Bool
  | [], _ => true
  | _ :: _, [] => false
  | p :: ps, c :: cs => p == c && startsWithL ps cs

/-- The element-id fingerprint regex `^\d+(-\d+)?$` from
`isValidPaginationUrl` (src/scrapePaulChekBlog.ts:243): one or more
digits, optionally followed by a hyphen and one or more digits. -/
def isElementIdLike (s : List Char) : Bool :=
  let ds := s.takeWhile Char.isDigit
  let rest := s.dropWhile Char.isDigit
  !ds.isEmpty &&
    (rest.isEmpty ||
      match rest with
      | '-' :: tl => !tl.isEmpty && tl.all Char.isDigit
      | _ => false)

/-- `isValidPostUrl` (src/scrapePaulChekBlog.ts:197-213): accepts a
non-empty string whose trimmed form is non-empty and starts with
`http://`, `https://`, or `/`. -/
def isValidPostUrl (url : List Char) : Bool :=
  if url = [] then false
  else
    let trimmed := trimL url
    if trimmed = [] then false
    else
      startsWithL "http://".data trimmed || startsWithL "https://".data trimmed ||
        startsWithL "/".data trimmed

/-- `isValidPaginationUrl` (src/scrapePaulChekBlog.ts:236-257): like
`isValidPostUrl` but additionally rejects trimmed strings matching the
element-id pattern `^\d+(-\d+)?$`. -/
def isValidPaginationUrl (url : List Char) : Bool :=
  if url = [] then false
  else
    let trimmed := trimL url
    if trimmed = [] then false
    else if isElementIdLike trimmed then false
    else
      startsWithL "http://".data trimmed || startsWithL "https://".data trimmed ||
        startsWithL "/".data trimmed

/-- `normalizePostUrl` (src/scrapePaulChekBlog.ts:218-229).  `resolve`
models the JS runtime's `new URL(url, base.origin).href` construction;
`none` models the constructor throwing, in which case the source's
`catch` returns the raw url. -/
def normalizePostUrl (resolve : List Char → List Char → Option (List Char))
    (url baseUrl : List Char) : List Char :=
  if startsWithL "http://".data url || startsWithL "https://".data url then url
  else
    match resolve url baseUrl with
    | some href => href
    | none => url

/-- Digit value of an ASCII digit character. -/
def digitVal (c : Char) : Nat := c.toNat - '0'.toNat

/-- Decimal digits of a natural number, modelling JS number-to-string
interpolation for non-negative integers. -/
def natChars (n : Nat) : List Char := (Nat.repr n).data

/-- Model of JS `String(n).padStart(2, "0")`. -/
def pad2 (n : Nat) : List Char :=
  let s := natChars n
  if s.length < 2 then '0' :: s else s

/-- The `YYYY-MM-DD` output format of `normalizeDate`
(src/scrapePaulChekBlog.ts:310, 320): year unpadded, month and day
zero-padded to two digits. -/
def fmtYMD (year month day : Nat) : List Char :=
  natChars year ++ '-' :: (pad2 month ++ '-' :: pad2 day)

/-- The ISO-likeness test `^\d{4}-\d{2}-\d{2}(T.*)?$`
(src/scrapePaulChekBlog.ts:274). -/
def isIsoLike : List Char → Bool
  | y1 :: y2 :: y3 :: y4 :: '-' :: m1 :: m2 :: '-' :: d1 :: d2 :: rest =>
    [y1, y2, y3, y4, m1, m2, d1, d2].all Char.isDigit &&
      (rest.isEmpty || rest.head? == some 'T')
  | _ => false

/-- Is the two-character sequence an ordinal suffix (`st`, `nd`, `rd`,
`th`), case-insensitively? -/
def isOrdSuffix (a b : Char) : Bool :=
  (a.toLower == 's' && b.toLower == 't') || (a.toLower == 'n' && b.toLower == 'd') ||
    (a.toLower == 'r' && b.toLower == 'd') || (a.toLower == 't' && b.toLower == 'h')

/-- Model of `raw.replace(/(\d+)(st|nd|rd|th)/gi, "$1")`
(src/scrapePaulChekBlog.ts:279): every ordinal suffix immediately
following a digit is deleted, scanning left to right. -/
def stripOrdinals : List Char → List Char
  | [] => []
  | [c] => [c]
  | c :: d :: e :: rest =>
    if c.isDigit && isOrdSuffix d e then c :: stripOrdinals rest
    else c :: stripOrdinals (d :: e :: rest)
  | [c, d] => [c, d]

/-- The fixed 12-name calendar of `normalizeDate`
(src/scrapePaulChekBlog.ts:282-295). -/
def monthNames : List (List Char) :=
  ["january".data, "february".data, "march".data, "april".data, "may".data,
    "june".data, "july".data, "august".data, "september".data, "october".data,
    "november".data, "december".data]

/-- If `pat` is a case-insensitive prefix of `s`, return the remainder. -/
def stripCI : List Char → List Char → Option (List Char)
  | [], s => some s
  | _ :: _, [] => none
  | p :: ps, c :: cs => if p.toLower == c.toLower then stripCI ps cs else none

/-- Try each month name (in calendar order) as a case-insensitive prefix;
return the 0-based month index and the remainder.  No month name is a
prefix of another, so the alternation order of the source regex is
immaterial. -/
def matchMonthName : List (List Char) → Nat → List Char → Option (Nat × List Char)
  | [], _, _ => none
  | m :: ms, i, s =>
    match stripCI m s with
    | some rest => some (i, rest)
    | none => matchMonthName ms (i + 1) s

/-- Consume `\s+`: at least one whitespace character, greedily. -/
def wsPlus : List Char → Option (List Char)
  | [] => none
  | c :: cs => if isJsWs c then some (cs.dropWhile isJsWs) else none

/-- Consume exactly four digits and return their value (the `(\d{4})`
group; no end anchor, so trailing characters are permitted). -/
def digits4 : List Char → Option Nat
  | a :: b :: c :: d :: _ =>
    if a.isDigit && b.isDigit && c.isDigit && d.isDigit then
      some (((digitVal a * 10 + digitVal b) * 10 + digitVal c) * 10 + digitVal d)
    else none
  | _ => none

/-- Continuation after the day group: `,?\s+(\d{4})`. -/
def contAfterDay (s : List Char) : Option Nat :=
  let s1 := match s with
    | ',' :: t => t
    | _ => s
  match wsPlus s1 with
  | some s2 => digits4 s2
  | none => none

/-- The day group `(\d{1,2})` followed by the year continuation, with
regex backtracking from two digits to one. -/
def parseDayYear : List Char → Option (Nat × Nat)
  | a :: b :: rest =>
    if a.isDigit && b.isDigit then
      match contAfterDay rest with
      | some y => some (digitVal a * 10 + digitVal b, y)
      | none =>
        match contAfterDay (b :: rest) with
        | some y => some (digitVal a, y)
        | none => none
    else if a.isDigit then
      match contAfterDay (b :: rest) with
      | some y => some (digitVal a, y)
      | none => none
    else none
  | _ => none

/-- The anchored match
`^(January|...|December)\s+(\d{1,2}),?\s+(\d{4})` (case-insensitive)
of src/scrapePaulChekBlog.ts:297-299, returning the 0-based month index,
the day, and the year. -/
def matchMonthDate (s : List Char) : Option (Nat × Nat × Nat) :=
  match matchMonthName monthNames 0 s with
  | none => none
  | some (i, rest) =>
    match wsPlus rest with
    | none => none
    | some r2 =>
      match parseDayYear r2 with
      | none => none
      | some (d, y) => some (i, d, y)

/-- `normalizeDate` (src/scrapePaulChekBlog.ts:268-325).  `jsDate` models
the JS runtime's last-resort `new Date(text)` parse followed by the
`getUTCFullYear`/`getUTCMonth`/`getUTCDate` reads: `some (y, m, d)` with
a 1-based month for a valid point in time, `none` for an Invalid Date. -/
def normalizeDate (jsDate : List Char → Option (Nat × Nat × Nat)) :
    Option (List Char) → Option (List Char)
  | none => none
  | some input =>
    if input = [] then none
    else
      let raw := trimL input
      if raw = [] then none
      else if isIsoLike raw then some raw
      else
        let withoutOrdinals := stripOrdinals raw
        let fallback : Option (List Char) :=
          match jsDate withoutOrdinals with
          | some (y, m, d) => some (fmtYMD y m d)
          | none => none
        match matchMonthDate withoutOrdinals with
        | some (monthIndex, day, year) =>
          if 1 ≤ day && day ≤ 31 then some (fmtYMD year (monthIndex + 1) day)
          else fallback
        | none => fallback

/-- Loosely-typed extraction payloads (the `unknown` value returned by the
backend before schema validation). -/
inductive Json where
  | null : Json
  | bool : Bool → Json
  | num : Int → Json
  | str : List Char → Json
  | arr : List Json → Json
  | obj : List (List Char × Json) → Json

/-- First-match association lookup on object fields (JS objects cannot
hold duplicate keys, so the order is immaterial). -/
def lookupField : List (List Char × Json) → List Char → Option Json
  | [], _ => none
  | (k', v) :: rest, k => if k' = k then some v else lookupField rest k

/-- JS property access `obj.k`: `undefined` (here `none`) on anything that
is not an object carrying the key. -/
def getField (j : Json) (k : List Char) : Option Json :=
  match j with
  | .obj fs => lookupField fs k
  | _ => none

/-- JS truthiness of a value (`!v` is true exactly on falsy values). -/
def jsFalsy : Json → Bool
  | .null => true
  | .bool b => !b
  | .num n => n == 0
  | .str s => s.isEmpty
  | .arr _ => false
  | .obj _ => false

mutual

/-- JS `String(v)` coercion for the values that can reach `new URL`. -/
def jsToString : Json → List Char
  | .null => "null".data
  | .bool true => "true".data
  | .bool false => "false".data
  | .num n => (Int.repr n).data
  | .str s => s
  | .arr xs => jsToStringList xs
  | .obj _ => "[object Object]".data

/-- JS array-to-string: elements joined by commas. -/
def jsToStringList : List Json → List Char
  | [] => []
  | [x] => jsToString x
  | x :: xs => jsToString x ++ ',' :: jsToStringList xs

end

/-- Is `c` in the slug character set `[a-z0-9-_]`
(src/scrapePaulChekBlog.ts:181)? -/
def isSlugChar (c : Char) : Bool :=
  ('a' ≤ c && c ≤ 'z') || c.isDigit || c == '-' || c == '_'

/-- Model of `.replace(/[^a-z0-9-_]+/g, "-")`: each maximal run of
characters outside the slug set becomes a single hyphen.  The flag
records whether the previous character belonged to such a run. -/
def slugReplace : List Char → Bool → List Char
  | [], _ => []
  | c :: cs, inRun =>
    if isSlugChar c then c :: slugReplace cs false
    else if inRun then slugReplace cs true
    else '-' :: slugReplace cs true

/-- JS `String.prototype.split` on a single separator character:
`"/a/".split("/") = ["", "a", ""]`. -/
def splitChar (sep : Char) : List Char → List (List Char)
  | [] => [[]]
  | c :: cs =>
    let r := splitChar sep cs
    if c == sep then [] :: r
    else
      match r with
      | h :: t => (c :: h) :: t
      | [] => [[c]]

/-- `slugFromUrl` (src/scrapePaulChekBlog.ts:174-185) applied to an
arbitrary JS value.  `pathnameOf` models the JS runtime's
`new URL(text).pathname`; `none` models the constructor throwing, which
the source's `catch` turns into `null`.  A falsy argument is rejected up
front by the `if (!url) return null` guard. -/
def slugFromUrl (pathnameOf : List Char → Option (List Char)) (v : Json) :
    Option (List Char) :=
  if jsFalsy v then none
  else
    match pathnameOf (jsToString v) with
    | none => none
    | some p =>
      let segments := (splitChar '/' p).filter (fun seg => !seg.isEmpty)
      match segments.getLast? with
      | none => none
      | some last => some (slugReplace (last.map Char.toLower) false)

/-- A configured section (src/scrapePaulChekBlog.ts:38-42). -/
structure Section where
  name : List Char
  slug : List Char
  baseUrl : List Char
deriving DecidableEq, Repr

/-- The canonical post-detail record (the `PostDetail` zod shape,
src/scrapePaulChekBlog.ts:24-33). -/
structure PostDetail where
  slug : List Char
  title : List Char
  url : List Char
  date : Option (List Char)
  doctorSection : List Char
  categories : Option (List (List Char))
  tags : Option (List (List Char))
  markdown : List Char
deriving DecidableEq, Repr

/-- `raw ?? {}` (src/scrapePaulChekBlog.ts:555): `undefined` and `null`
become an empty object, everything else is kept. -/
def coerceRaw : Option Json → Json
  | none => .obj []
  | some .null => .obj []
  | some j => j

/-- `obj.url ?? postUrl`: the `url` field unless it is absent or null. -/
def urlOrPost (obj : Json) (postUrl : List Char) : Json :=
  match getField obj "url".data with
  | none => .str postUrl
  | some .null => .str postUrl
  | some v => v

/-- Keep only the strings of a JS array (the
`.filter((c) => typeof c === "string")` calls). -/
def stringsOf (xs : List Json) : List (List Char) :=
  xs.filterMap (fun j => match j with | .str s => some s | _ => none)

/-- The fallback `PostDetail` built by `extractPostDetail` when the
payload fails shape validation (src/scrapePaulChekBlog.ts:550-584):
each field is taken from the payload when it has the expected primitive
type and replaced by a deterministic default otherwise. -/
def fallbackPostDetail (pathnameOf : List Char → Option (List Char))
    (raw : Option Json) (postUrl : List Char) (sec : Section) : PostDetail :=
  let obj := coerceRaw raw
  { slug :=
      match getField obj "slug".data with
      | some (.str s) => s
      | _ =>
        ((slugFromUrl pathnameOf (urlOrPost obj postUrl)).or
          (slugFromUrl pathnameOf (.str postUrl))).getD "untitled".data
    title :=
      match getField obj "title".data with
      | some (.str s) => s
      | _ => (slugFromUrl pathnameOf (.str postUrl)).getD postUrl
    url :=
      match getField obj "url".data with
      | some (.str s) => s
      | _ => postUrl
    date :=
      match getField obj "date".data with
      | some (.str s) => some s
      | _ => none
    doctorSection :=
      match getField obj "doctorSection".data with
      | some (.str s) => s
      | _ => sec.slug
    categories :=
      match getField obj "categories".data with
      | some (.arr xs) => some (stringsOf xs)
      | _ => some []
    tags :=
      match getField obj "tags".data with
      | some (.arr xs) => some (stringsOf xs)
      | _ => some []
    markdown :=
      match getField obj "markdown".data with
      | some (.str s) => s
      | _ => [] }

/-- A post summary extracted from a listing page (the
`CategoryPostSummarySchema` shape, src/scrapePaulChekBlog.ts:10-16). -/
structure Summary where
  url : List Char
  title : List Char
  date : Option (List Char)
  categories : Option (List (List Char))
  tags : Option (List (List Char))
deriving DecidableEq, Repr

/-- The record handed to the persistent store (`PostRecord`,
src/scrapePaulChekBlog.ts:822-831). -/
structure PostRecord where
  url : List Char
  slug : List Char
  title : List Char
  datePublished : Option (List Char)
  doctorSection : List Char
  categories : List (List Char)
  tags : List (List Char)
  markdown : List Char
deriving DecidableEq, Repr

/-- Outcome of one `extractPostDetail` call: a detail record, or a thrown
error classified by `isStagehandSessionError` and carrying its
`errorType` name. -/
inductive DetOutcome where
  | ok : PostDetail → DetOutcome
  | err : Bool → List Char → DetOutcome
deriving DecidableEq, Repr

/-- Outcome of one `extractCategoryPage` call: a listing result (its
internal schema fallback never throws), or a thrown error classified by
`isStagehandSessionError`. -/
inductive CatOutcome where
  | ok : List Summary → Option (List Char) → CatOutcome
  | err : Bool → CatOutcome
deriving DecidableEq, Repr

/-- The extraction backend for one section, as a deterministic oracle:
the n-th category-page call and the n-th detail call of the section
return fixed outcomes. -/
structure Env where
  category : Nat → CatOutcome
  detail : Nat → DetOutcome

/-- The JS-runtime facilities the crawler uses: URL resolution
(`new URL(url, base.origin).href`) and generic date parsing. -/
structure JsRt where
  resolve : List Char → List Char → Option (List Char)
  jsDate : List Char → Option (Nat × Nat × Nat)

/-- Per-section status (src/scrapePaulChekBlog.ts:53). -/
inductive SectionStatus where
  | pending
  | sectionComplete
  | sessionFailed
deriving DecidableEq, Repr

/-- Per-section counters (src/scrapePaulChekBlog.ts:44-49). -/
structure SectionRunStats where
  pagesVisited : Nat
  postsDiscovered : Nat
  postsSaved : Nat
  postsFailed : Nat
deriving DecidableEq, Repr

/-- The telemetry the crawl writes (`RunReport`,
src/scrapePaulChekBlog.ts:55-75), restricted to the fields a single
section's crawl reads or writes: run totals, the current section's
stats and status entries, and the error histogram. -/
structure RunReport where
  totalsCategoryPagesVisited : Nat
  totalsPostsDiscovered : Nat
  totalsPostsSaved : Nat
  totalsPostsFailed : Nat
  sectionStats : SectionRunStats
  sectionStatus : SectionStatus
  errors : List (List Char × Nat)
deriving DecidableEq, Repr

/-- `runReport.errors[errorType] = (runReport.errors[errorType] ?? 0) + 1`
(src/scrapePaulChekBlog.ts:762-763). -/
def bumpError : List (List Char × Nat) → List Char → List (List Char × Nat)
  | [], k => [(k, 1)]
  | (k', n) :: rest, k =>
    if k' = k then (k', n + 1) :: rest else (k', n) :: bumpError rest k

/-- Observable actions of a section crawl, in execution order: pages
navigated to, diagnostic extractions, skipped summaries, dedup-passing
URLs, detail-extraction attempts, retry backoffs, and records forwarded
to the sink. -/
inductive Event where
  | pageVisit : Nat → List Char → Event
  | debugExtract : List Char → Event
  | skipInvalid : List Char → Event
  | skipSeen : List Char → Event
  | processUrl : List Char → Event
  | detailAttempt : List Char → Nat → Event
  | backoffWait : Nat → Event
  | savedRecord : PostRecord → Event
deriving DecidableEq, Repr

/-- The mutable locals of `scrapeSection` plus the shared seen-set, the
report, and the oracle call counters. -/
structure St where
  seen : List (List Char)
  consecutiveSessionErrors : Nat
  sessionHealthy : Bool
  catIdx : Nat
  detIdx : Nat
  report : RunReport
deriving DecidableEq, Repr

/-- `SESSION_ERROR_POST_THRESHOLD` (src/scrapePaulChekBlog.ts:601). -/
def SESSION_ERROR_POST_THRESHOLD : Nat := 3

/-- `maxAttempts` (src/scrapePaulChekBlog.ts:738). -/
def maxAttempts : Nat := 3

/-- The per-URL retry loop of `scrapeSection`
(src/scrapePaulChekBlog.ts:740-800).  `fuel` counts the remaining loop
iterations (`maxAttempts + 1 - attempt`); `attempt` is the 1-based
attempt number the source compares against `maxAttempts`. -/
def attemptLoop (env : Env) (normalizedUrl : List Char) :
    Nat → Nat → St → Option PostDetail × St × List Event
  | 0, _, st => (none, st, [])
  | fuel + 1, attempt, st =>
    match env.detail st.detIdx with
    | .ok d =>
      (some d, { st with detIdx := st.detIdx + 1, consecutiveSessionErrors := 0 },
        [.detailAttempt normalizedUrl attempt])
    | .err isSessionError errorType =>
      let st1 := { st with
        detIdx := st.detIdx + 1,
        report := { st.report with errors := bumpError st.report.errors errorType } }
      if isSessionError && attempt == maxAttempts then
        let c := st1.consecutiveSessionErrors + 1
        if SESSION_ERROR_POST_THRESHOLD ≤ c then
          (none, { st1 with
            consecutiveSessionErrors := c,
            sessionHealthy := false,
            report := { st1.report with sectionStatus := .sessionFailed } },
            [.detailAttempt normalizedUrl attempt])
        else
          (none, { st1 with consecutiveSessionErrors := c },
            [.detailAttempt normalizedUrl attempt])
      else if !isSessionError || attempt == maxAttempts then
        (none, st1, [.detailAttempt normalizedUrl attempt])
      else
        let r := attemptLoop env normalizedUrl fuel (attempt + 1) st1
        (r.1, r.2.1,
          .detailAttempt normalizedUrl attempt :: .backoffWait (attempt * 1000) :: r.2.2)

/-- The page-advance decision at the end of a listing iteration
(src/scrapePaulChekBlog.ts:853-872): a truthy hint accepted by the
pagination validator is followed (normalized to absolute form);
otherwise, if the page yielded any summaries, the sequential fallback
`baseUrl ++ page/<n+1>/` is used; otherwise pagination terminates. -/
def nextPageTarget (resolve : List Char → List Char → Option (List Char))
    (sec : Section) (pageNum : Nat) (nextPageUrl : Option (List Char))
    (postsCount : Nat) : Option (List Char) :=
  let hasValidNextUrl :=
    match nextPageUrl with
    | some u => isValidPaginationUrl u
    | none => false
  let truthy :=
    match nextPageUrl with
    | some u => !u.isEmpty
    | none => false
  if truthy && hasValidNextUrl then
    some (normalizePostUrl resolve (nextPageUrl.getD []) sec.baseUrl)
  else if 0 < postsCount then
    some (sec.baseUrl ++ "page/".data ++ natChars (pageNum + 1) ++ "/".data)
  else none

/-- The per-summary loop of `scrapeSection`
(src/scrapePaulChekBlog.ts:709-842).  Returns the number of new posts
saved on this page. -/
def postsLoop (rt : JsRt) (env : Env) (sec : Section) :
    List Summary → St → Nat × St × List Event
  | [], st => (0, st, [])
  | summary :: rest, st =>
    if !st.sessionHealthy then (0, st, [])
    else if !isValidPostUrl summary.url then
      let r := postsLoop rt env sec rest st
      (r.1, r.2.1, .skipInvalid summary.url :: r.2.2)
    else
      let normalizedUrl := normalizePostUrl rt.resolve summary.url sec.baseUrl
      if normalizedUrl ∈ st.seen then
        let r := postsLoop rt env sec rest st
        (r.1, r.2.1, .skipSeen normalizedUrl :: r.2.2)
      else
        let st1 := { st with seen := normalizedUrl :: st.seen }
        let a := attemptLoop env normalizedUrl maxAttempts 1 st1
        let st2 := a.2.1
        if !st2.sessionHealthy then (0, st2, .processUrl normalizedUrl :: a.2.2)
        else
          match a.1 with
          | none =>
            let st3 := { st2 with
              report := { st2.report with
                totalsPostsFailed := st2.report.totalsPostsFailed + 1,
                sectionStats := { st2.report.sectionStats with
                  postsFailed := st2.report.sectionStats.postsFailed + 1 } } }
            let r := postsLoop rt env sec rest st3
            (r.1, r.2.1, .processUrl normalizedUrl :: (a.2.2 ++ r.2.2))
          | some detail =>
            let normalizedDate := normalizeDate rt.jsDate detail.date
            let effectiveDate := normalizedDate.or detail.date
            let postRecord : PostRecord :=
              { url := detail.url, slug := detail.slug, title := detail.title,
                datePublished := effectiveDate,
                doctorSection := detail.doctorSection,
                categories := detail.categories.getD [],
                tags := detail.tags.getD [], markdown := detail.markdown }
            let st3 := { st2 with
              report := { st2.report with
                totalsPostsSaved := st2.report.totalsPostsSaved + 1,
                sectionStats := { st2.report.sectionStats with
                  postsSaved := st2.report.sectionStats.postsSaved + 1 } } }
            let r := postsLoop rt env sec rest st3
            (r.1 + 1, r.2.1,
              .processUrl normalizedUrl ::
                (a.2.2 ++ .savedRecord postRecord :: r.2.2))

/-- The listing-page while-loop of `scrapeSection`
(src/scrapePaulChekBlog.ts:611-889).  `fuel` bounds the recursion; the
loop itself stops via the page budget, the current-URL cursor, and the
health flag, and `scrapeSection` supplies enough fuel for the budget. -/
def pageLoop (rt : JsRt) (env : Env) (sec : Section) (maxPagesPerSection : Nat) :
    Nat → Nat → Option (List Char) → St → Nat × St × List Event
  | 0, _, _, st => (0, st, [])
  | fuel + 1, pageNum, currentUrl, st =>
    match currentUrl with
    | none => (0, st, [])
    | some url =>
      if pageNum ≤ maxPagesPerSection && st.sessionHealthy then
        let st1 := { st with
          catIdx := st.catIdx + 1,
          report := { st.report with
            totalsCategoryPagesVisited := st.report.totalsCategoryPagesVisited + 1,
            sectionStats := { st.report.sectionStats with
              pagesVisited := st.report.sectionStats.pagesVisited + 1 } } }
        match env.category st.catIdx with
        | .err isSessionError =>
          if isSessionError then
            (0, { st1 with
              sessionHealthy := false,
              report := { st1.report with sectionStatus := .sessionFailed } },
              [.pageVisit pageNum url])
          else (0, st1, [.pageVisit pageNum url])
        | .ok posts nextPageUrl =>
          let debugEvs := if posts.isEmpty then [Event.debugExtract url] else []
          let st2 := { st1 with
            report := { st1.report with
              totalsPostsDiscovered :=
                st1.report.totalsPostsDiscovered + posts.length,
              sectionStats := { st1.report.sectionStats with
                postsDiscovered := st1.report.sectionStats.postsDiscovered +
                  posts.length } } }
          let p := postsLoop rt env sec posts st2
          let nextUrl := nextPageTarget rt.resolve sec pageNum nextPageUrl posts.length
          let q := pageLoop rt env sec maxPagesPerSection fuel (pageNum + 1) nextUrl p.2.1
          (p.1 + q.1, q.2.1, .pageVisit pageNum url :: (debugEvs ++ p.2.2 ++ q.2.2))
      else (0, st, [])

/-- `scrapeSection` (src/scrapePaulChekBlog.ts:587-892): one section's
crawl, started from a freshly constructed health monitor (counter 0,
healthy) at page 1 of the section's base URL.  Returns the number of new
posts saved, the final state, and the event trace. -/
def scrapeSection (rt : JsRt) (env : Env) (sec : Section)
    (maxPagesPerSection : Nat) (seenUrls : List (List Char))
    (report : RunReport) : Nat × St × List Event :=
  pageLoop rt env sec maxPagesPerSection maxPagesPerSection 1 (some sec.baseUrl)
    { seen := seenUrls, consecutiveSessionErrors := 0, sessionHealthy := true,
      catIdx := 0, detIdx := 0, report := report }

/-- `main`'s post-crawl status fixup (src/scrapePaulChekBlog.ts:1110-1112):
a still-pending section is marked complete; a special status is kept. -/
def finalSectionStatus (r : RunReport) : SectionStatus :=
  if r.sectionStatus = .pending then .sectionComplete else r.sectionStatus

/-- The fresh per-section report entry set up by `main`
(src/scrapePaulChekBlog.ts:1029-1037): zeroed stats and pending status;
run totals and the error histogram carry over. -/
def freshSectionReport (r : RunReport) : RunReport :=
  { r with sectionStats := ⟨0, 0, 0, 0⟩, sectionStatus := .pending }

/-- The per-section loop of `main` (src/scrapePaulChekBlog.ts:1061-1173):
each section gets its own backend instance (its own `Env`) and a fresh
report entry; only the shared seen-set, the run totals and the error
histogram flow between sections.  Returns the final seen set and report,
the per-section final statuses, and the concatenated event trace. -/
def runSections (rt : JsRt) (maxPagesPerSection : Nat) :
    List (Section × Env) → List (List Char) → RunReport →
      List (List Char) × RunReport × List SectionStatus × List Event
  | [], seen, report => (seen, report, [], [])
  | (sec, env) :: rest, seen, report =>
    let r := scrapeSection rt env sec maxPagesPerSection seen
      (freshSectionReport report)
    let status := finalSectionStatus r.2.1.report
    let q := runSections rt maxPagesPerSection rest r.2.1.seen
      { r.2.1.report with sectionStatus := status }
    (q.1, q.2.1, status :: q.2.2.1, r.2.2 ++ q.2.2.2)

/-- `main` (src/scrapePaulChekBlog.ts:997-1267) restricted to the core
crawl: the run-scoped Dedup Set is seeded from the persistent store's
known URLs (`getExistingPostUrls`) and shared across all sections. -/
def runMain (rt : JsRt) (maxPagesPerSection : Nat)
    (sections : List (Section × Env)) (existingUrls : List (List Char)) :
    List (List Char) × RunReport × List SectionStatus × List Event :=
  runSections rt maxPagesPerSection sections existingUrls
    { totalsCategoryPagesVisited := 0, totalsPostsDiscovered := 0,
      totalsPostsSaved := 0, totalsPostsFailed := 0,
      sectionStats := ⟨0, 0, 0, 0⟩, sectionStatus := .pending, errors := [] }

/-- The URLs for which a detail extraction was started (they passed the
dedup check), in order. -/
def procOf (evs : List Event) : List (List Char) :=
  evs.filterMap (fun e =>
    match e with
    | .processUrl u => some u
    | _ => none)

/-- The URLs of the individual detail-extraction attempts, in order. -/
def attemptUrlsOf (evs : List Event) : List (List Char) :=
  evs.filterMap (fun e =>
    match e with
    | .detailAttempt u _ => some u
    | _ => none)

/-- The records forwarded to the sink, in order. -/
def savedOf (evs : List Event) : List PostRecord :=
  evs.filterMap (fun e =>
    match e with
    | .savedRecord r => some r
    | _ => none)

/-- Concrete JS runtime for the closed crawl scenarios: relative URLs are
kept as-is and the generic date parse always fails. -/
def testRt : JsRt := ⟨fun u _ => some u, fun _ => none⟩

/-- Concrete section for the closed crawl scenarios. -/
def testSection : Section :=
  ⟨"Dr. Diet".data, "dr-diet".data, "/b/".data⟩

/-- A listing summary carrying only a URL, as the crawl needs. -/
def testSummary (u : List Char) : Summary := ⟨u, "t".data, none, none, none⟩

/-- A fixed successful detail payload. -/
def testDetail : PostDetail :=
  ⟨"sl".data, "T".data, "/p/".data, none, "dr-diet".data, none, none,
    "body".data⟩

/-- A report with every counter zeroed and pending status. -/
def emptyReport : RunReport := ⟨0, 0, 0, 0, ⟨0, 0, 0, 0⟩, .pending, []⟩

/-- Oracle: one listing page with three posts; every detail call raises a
session error. -/
def envThreeFailing : Env :=
  ⟨fun i =>
      if i = 0 then
        .ok [testSummary "/p1/".data, testSummary "/p2/".data,
          testSummary "/p3/".data] none
      else .err false,
    fun _ => .err true "StagehandServerError".data⟩

/-- Oracle: one listing page with four posts; detail calls all raise
session errors except call 3 (the second URL's first attempt), which
succeeds. -/
def envRecoveredFour : Env :=
  ⟨fun i =>
      if i = 0 then
        .ok [testSummary "/u1/".data, testSummary "/u2/".data,
          testSummary "/u3/".data, testSummary "/u4/".data] none
      else .err false,
    fun j => if j = 3 then .ok testDetail else .err true "StagehandServerError".data⟩

/-- The same oracle with a fifth post on the listing page. -/
def envRecoveredFive : Env :=
  ⟨fun i =>
      if i = 0 then
        .ok [testSummary "/u1/".data, testSummary "/u2/".data,
          testSummary "/u3/".data, testSummary "/u4/".data,
          testSummary "/u5/".data] none
      else .err false,
    fun j => if j = 3 then .ok testDetail else .err true "StagehandServerError".data⟩

end PaulChek

namespace PaulChek

theorem startsWithL_nil_left (s : List Char) : startsWithL [] s = true := by
  cases s <;> rfl

theorem startsWithL_cons_ex {p : Char} {ps s : List Char}
    (h : startsWithL (p :: ps) s = true) : ∃ tl, s = p :: tl := by
  cases s with
  | nil => simp [startsWithL] at h
  | cons c cs =>
    simp only [startsWithL, Bool.and_eq_true, beq_iff_eq] at h
    exact ⟨cs, by rw [h.1]⟩

theorem startsWithL_trimRight :
    ∀ (s p : List Char), (∀ c ∈ p, isJsWs c = false) →
      startsWithL p s = true → startsWithL p (trimRight s) = true := by
  intro s
  induction s with
  | nil =>
    intro p _ h
    cases p with
    | nil => simp [trimRight, startsWithL]
    | cons q qs => simp [startsWithL] at h
  | cons c cs ih =>
    intro p hp h
    cases p with
    | nil => exact startsWithL_nil_left _
    | cons q qs =>
      simp only [startsWithL, Bool.and_eq_true, beq_iff_eq] at h
      obtain ⟨hq, hqs⟩ := h
      have hcw : isJsWs c = false := by
        rw [← hq]; exact hp q (List.mem_cons_self _ _)
      have : trimRight (c :: cs) = c :: trimRight cs := by
        simp [trimRight, hcw]
      rw [this]
      simp only [startsWithL, Bool.and_eq_true, beq_iff_eq]
      refine ⟨hq, ?_⟩
      cases qs with
      | nil => exact startsWithL_nil_left _
      | cons r rs =>
        exact ih (r :: rs) (fun d hd => hp d (List.mem_cons_of_mem _ hd)) hqs

theorem startsWithL_trimL (p s : List Char) (hp : ∀ c ∈ p, isJsWs c = false)
    (hne : p ≠ []) (h : startsWithL p s = true) :
    startsWithL p (trimL s) = true := by
  cases p with
  | nil => exact absurd rfl hne
  | cons q qs =>
    obtain ⟨tl, rfl⟩ := startsWithL_cons_ex h
    have hqw : isJsWs q = false := hp q (List.mem_cons_self _ _)
    have hdrop : (q :: tl).dropWhile isJsWs = q :: tl := by
      simp [List.dropWhile, hqw]
    unfold trimL
    rw [hdrop]
    exact startsWithL_trimRight _ _ hp h

theorem startsWithL_ne_nil {p : Char} {ps s : List Char}
    (h : startsWithL (p :: ps) s = true) : s ≠ [] := by
  obtain ⟨tl, rfl⟩ := startsWithL_cons_ex h
  simp

theorem isElementIdLike_head (c : Char) (tl : List Char)
    (hc : c.isDigit = false) : isElementIdLike (c :: tl) = false := by
  simp [isElementIdLike, List.takeWhile, hc]

theorem validPost_iff (s : List Char) :
    isValidPostUrl s = true ↔
      (trimL s ≠ [] ∧ (startsWithL "http://".data (trimL s) = true ∨
        startsWithL "https://".data (trimL s) = true ∨
        startsWithL "/".data (trimL s) = true)) := by
  unfold isValidPostUrl
  rcases s with _ | ⟨c, cs⟩
  · simp [trimL, trimRight]
  · simp only [reduceCtorEq, if_false]
    by_cases ht : trimL (c :: cs) = []
    · simp [ht, startsWithL]
    · simp [ht]
      tauto

theorem validPagination_eq (s : List Char) :
    isValidPaginationUrl s = (isValidPostUrl s && !isElementIdLike (trimL s)) := by
  unfold isValidPaginationUrl isValidPostUrl
  rcases s with _ | ⟨c, cs⟩
  · rfl
  · simp only [reduceCtorEq, if_false]
    by_cases ht : trimL (c :: cs) = []
    · simp [ht]
    · by_cases he : isElementIdLike (trimL (c :: cs))
      · simp [ht, he]
      · simp [ht, he]

/-- C6: the general URL validator accepts a string exactly when its trimmed
form is non-empty and starts with `http://`, `https://`, or `/`; the
pagination variant accepts the same set of strings except that trimmed
strings matching `^\d+(-\d+)?$` are rejected; every such element-id string
is rejected by the pagination variant, and every string starting with
`http://`, `https://`, or `/` is accepted by both validators. -/
theorem claim_C6 (s : List Char) :
    (isValidPostUrl s = true ↔
      (trimL s ≠ [] ∧ (startsWithL "http://".data (trimL s) = true ∨
        startsWithL "https://".data (trimL s) = true ∨
        startsWithL "/".data (trimL s) = true))) ∧
    isValidPaginationUrl s = (isValidPostUrl s && !isElementIdLike (trimL s)) ∧
    (isElementIdLike (trimL s) = true → isValidPaginationUrl s = false) ∧
    ((startsWithL "http://".data s = true ∨ startsWithL "https://".data s = true ∨
        startsWithL "/".data s = true) →
      isValidPostUrl s = true ∧ isValidPaginationUrl s = true) := by
  refine ⟨validPost_iff s, validPagination_eq s, ?_, ?_⟩
  · intro he
    rw [validPagination_eq, he]
    simp
  · intro h
    have hpost : isValidPostUrl s = true := by
      rcases h with h | h | h
      · refine (validPost_iff s).mpr ⟨?_, Or.inl ?_⟩
        · have := startsWithL_trimL _ s (by decide) (by decide) h
          exact startsWithL_ne_nil this
        · exact startsWithL_trimL _ s (by decide) (by decide) h
      · refine (validPost_iff s).mpr ⟨?_, Or.inr (Or.inl ?_)⟩
        · have := startsWithL_trimL _ s (by decide) (by decide) h
          exact startsWithL_ne_nil this
        · exact startsWithL_trimL _ s (by decide) (by decide) h
      · refine (validPost_iff s).mpr ⟨?_, Or.inr (Or.inr ?_)⟩
        · have := startsWithL_trimL _ s (by decide) (by decide) h
          exact startsWithL_ne_nil this
        · exact startsWithL_trimL _ s (by decide) (by decide) h
    have helem : isElementIdLike (trimL s) = false := by
      rcases h with h | h | h
      · obtain ⟨tl, htl⟩ := startsWithL_cons_ex (startsWithL_trimL _ s (by decide) (by decide) h)
        rw [htl]; exact isElementIdLike_head _ _ (by decide)
      · obtain ⟨tl, htl⟩ := startsWithL_cons_ex (startsWithL_trimL _ s (by decide) (by decide) h)
        rw [htl]; exact isElementIdLike_head _ _ (by decide)
      · obtain ⟨tl, htl⟩ := startsWithL_cons_ex (startsWithL_trimL _ s (by decide) (by decide) h)
        rw [htl]; exact isElementIdLike_head _ _ (by decide)
    refine ⟨hpost, ?_⟩
    rw [validPagination_eq, hpost, helem]
    rfl

/-- Witness for C6 at concrete inputs: the element id `0-346` is rejected by
the pagination validator, and `/water-as-medicine/` is accepted by both. -/
theorem claim_C6_witness :
    isValidPaginationUrl "0-346".data = false ∧
    isValidPostUrl "/water-as-medicine/".data = true ∧
    isValidPaginationUrl "/water-as-medicine/".data = true :=
  ⟨(claim_C6 "0-346".data).2.2.1 (by decide),
   ((claim_C6 "/water-as-medicine/".data).2.2.2 (Or.inr (Or.inr (by decide)))).1,
   ((claim_C6 "/water-as-medicine/".data).2.2.2 (Or.inr (Or.inr (by decide)))).2⟩

/-- C7: the date normalizer satisfies the spec's test vectors for every
behaviour of the JS `Date` fallback parser: `"December 26th, 2025"`
normalizes to `"2025-12-26"` via ordinal stripping and the month-name
rule, `"2025-12-26"` is returned unchanged by the ISO rule, and
`"not a date"` yields `null` whenever the generic parse rejects it. -/
theorem claim_C7 :
    (∀ jsDate, normalizeDate jsDate (some "December 26th, 2025".data) =
      some "2025-12-26".data) ∧
    (∀ jsDate, normalizeDate jsDate (some "2025-12-26".data) =
      some "2025-12-26".data) ∧
    (∀ jsDate, jsDate "not a date".data = none →
      normalizeDate jsDate (some "not a date".data) = none) := by
  refine ⟨fun jsDate => rfl, fun jsDate => rfl, fun jsDate h => ?_⟩
  have hred : normalizeDate jsDate (some "not a date".data) =
      (match jsDate "not a date".data with
        | some (y, m, d) => some (fmtYMD y m d)
        | none => none) := rfl
  rw [hred, h]

/-- Witness for C7: instantiating the fallback parser with one that
rejects everything, the third vector evaluates to `null`. -/
theorem claim_C7_witness :
    normalizeDate (fun _ => none) (some "not a date".data) = none :=
  claim_C7.2.2 (fun _ => none) rfl

theorem slugReplace_mem :
    ∀ (xs : List Char) (b : Bool) (c : Char), c ∈ slugReplace xs b →
      isSlugChar c = true := by
  intro xs
  induction xs with
  | nil => intro b c hc; simp [slugReplace] at hc
  | cons x rest ih =>
    intro b c hc
    by_cases hx : isSlugChar x
    · rw [slugReplace, if_pos hx] at hc
      rcases List.mem_cons.mp hc with h | h
      · rw [h]; exact hx
      · exact ih false c h
    · rw [slugReplace, if_neg hx] at hc
      cases b with
      | true => exact ih true c (by simpa using hc)
      | false =>
        simp only [Bool.false_eq_true, if_false] at hc
        rcases List.mem_cons.mp hc with h | h
        · rw [h]; decide
        · exact ih true c h

/-- C8: the record-normalizer fallback always yields a complete canonical
record.  Every scalar field is taken from the payload when present with
the expected primitive type; otherwise a deterministic default is
substituted: the slug is derived from the URL (payload url first, then
the requested URL, then `"untitled"`), the title defaults to the slug of
the requested URL or the raw URL itself, the url defaults to the
requested URL, the section to the requested section's slug, list fields
to empty lists, the date to null and the body to the empty string; and
any slug derived from a URL consists only of `[a-z0-9-_]` characters,
being the lower-cased, restricted last non-empty path segment. -/
theorem claim_C8 (pathnameOf : List Char → Option (List Char))
    (raw : Option Json) (postUrl : List Char) (sec : Section) :
    (∀ t, getField (coerceRaw raw) "slug".data = some (.str t) →
      (fallbackPostDetail pathnameOf raw postUrl sec).slug = t) ∧
    (∀ t, getField (coerceRaw raw) "title".data = some (.str t) →
      (fallbackPostDetail pathnameOf raw postUrl sec).title = t) ∧
    (∀ t, getField (coerceRaw raw) "url".data = some (.str t) →
      (fallbackPostDetail pathnameOf raw postUrl sec).url = t) ∧
    (∀ t, getField (coerceRaw raw) "date".data = some (.str t) →
      (fallbackPostDetail pathnameOf raw postUrl sec).date = some t) ∧
    (∀ t, getField (coerceRaw raw) "doctorSection".data = some (.str t) →
      (fallbackPostDetail pathnameOf raw postUrl sec).doctorSection = t) ∧
    (∀ t, getField (coerceRaw raw) "markdown".data = some (.str t) →
      (fallbackPostDetail pathnameOf raw postUrl sec).markdown = t) ∧
    (∀ xs, getField (coerceRaw raw) "categories".data = some (.arr xs) →
      (fallbackPostDetail pathnameOf raw postUrl sec).categories =
        some (stringsOf xs)) ∧
    (∀ xs, getField (coerceRaw raw) "tags".data = some (.arr xs) →
      (fallbackPostDetail pathnameOf raw postUrl sec).tags = some (stringsOf xs)) ∧
    ((∀ t, getField (coerceRaw raw) "slug".data ≠ some (.str t)) →
      (fallbackPostDetail pathnameOf raw postUrl sec).slug =
        ((slugFromUrl pathnameOf (urlOrPost (coerceRaw raw) postUrl)).or
          (slugFromUrl pathnameOf (.str postUrl))).getD "untitled".data) ∧
    ((∀ t, getField (coerceRaw raw) "title".data ≠ some (.str t)) →
      (fallbackPostDetail pathnameOf raw postUrl sec).title =
        (slugFromUrl pathnameOf (.str postUrl)).getD postUrl) ∧
    ((∀ t, getField (coerceRaw raw) "url".data ≠ some (.str t)) →
      (fallbackPostDetail pathnameOf raw postUrl sec).url = postUrl) ∧
    ((∀ t, getField (coerceRaw raw) "date".data ≠ some (.str t)) →
      (fallbackPostDetail pathnameOf raw postUrl sec).date = none) ∧
    ((∀ t, getField (coerceRaw raw) "doctorSection".data ≠ some (.str t)) →
      (fallbackPostDetail pathnameOf raw postUrl sec).doctorSection = sec.slug) ∧
    ((∀ t, getField (coerceRaw raw) "markdown".data ≠ some (.str t)) →
      (fallbackPostDetail pathnameOf raw postUrl sec).markdown = []) ∧
    ((∀ xs, getField (coerceRaw raw) "categories".data ≠ some (.arr xs)) →
      (fallbackPostDetail pathnameOf raw postUrl sec).categories = some []) ∧
    ((∀ xs, getField (coerceRaw raw) "tags".data ≠ some (.arr xs)) →
      (fallbackPostDetail pathnameOf raw postUrl sec).tags = some []) ∧
    (∀ v s, slugFromUrl pathnameOf v = some s → ∀ c ∈ s, isSlugChar c = true) ∧
    (∀ v p lastSeg, jsFalsy v = false → pathnameOf (jsToString v) = some p →
      ((splitChar '/' p).filter (fun seg => !seg.isEmpty)).getLast? = some lastSeg →
      slugFromUrl pathnameOf v = some (slugReplace (lastSeg.map Char.toLower) false)) := by
  have hstr : ∀ (k : List Char),
      (∀ t, getField (coerceRaw raw) k ≠ some (.str t)) →
      ∀ {α : Type} (f : List Char → α) (d : α),
        (match getField (coerceRaw raw) k with
          | some (.str s) => f s
          | _ => d) = d := by
    intro k hk α f d
    rcases hf : getField (coerceRaw raw) k with _ | j
    · rfl
    · cases j with
      | str s => exact absurd hf (hk s)
      | null => rfl
      | bool b => rfl
      | num n => rfl
      | arr xs => rfl
      | obj fs => rfl
  have harr : ∀ (k : List Char),
      (∀ xs, getField (coerceRaw raw) k ≠ some (.arr xs)) →
      ∀ {α : Type} (f : List Json → α) (d : α),
        (match getField (coerceRaw raw) k with
          | some (.arr xs) => f xs
          | _ => d) = d := by
    intro k hk α f d
    rcases hf : getField (coerceRaw raw) k with _ | j
    · rfl
    · cases j with
      | arr xs => exact absurd hf (hk xs)
      | null => rfl
      | bool b => rfl
      | num n => rfl
      | str s => rfl
      | obj fs => rfl
  refine ⟨?_, ?_, ?_, ?_, ?_, ?_, ?_, ?_, ?_, ?_, ?_, ?_, ?_, ?_, ?_, ?_, ?_, ?_⟩
  · intro t h; simp [fallbackPostDetail, h]
  · intro t h; simp [fallbackPostDetail, h]
  · intro t h; simp [fallbackPostDetail, h]
  · intro t h; simp [fallbackPostDetail, h]
  · intro t h; simp [fallbackPostDetail, h]
  · intro t h; simp [fallbackPostDetail, h]
  · intro xs h; simp [fallbackPostDetail, h]
  · intro xs h; simp [fallbackPostDetail, h]
  · intro h; exact hstr _ h _ _
  · intro h; exact hstr _ h _ _
  · intro h; exact hstr _ h _ _
  · intro h; exact hstr _ h _ _
  · intro h; exact hstr _ h _ _
  · intro h; exact hstr _ h _ _
  · intro h; exact harr _ h _ _
  · intro h; exact harr _ h _ _
  · intro v s hs c hc
    unfold slugFromUrl at hs
    by_cases hv : jsFalsy v
    · simp [hv] at hs
    · rw [if_neg (by simpa using hv)] at hs
      rcases hp : pathnameOf (jsToString v) with _ | p
      · rw [hp] at hs; cases hs
      · rw [hp] at hs
        rcases hl : ((splitChar '/' p).filter (fun seg => !seg.isEmpty)).getLast? with
          _ | lastSeg
        · simp [hl] at hs
        · simp only [hl] at hs
          have : s = slugReplace (lastSeg.map Char.toLower) false :=
            (Option.some.injEq _ _ ▸ hs).symm
          rw [this] at hc
          exact slugReplace_mem _ _ _ hc
  · intro v p lastSeg hv hp hl
    unfold slugFromUrl
    rw [if_neg (by simp [hv]), hp]
    simp only [hl]

/-- Witness for C8: with a payload of `null` (shape validation certainly
failed), the fallback record takes every default; the derived slug of the
pathname `/My Post!/` is `my-post-`, which uses only slug characters. -/
theorem claim_C8_witness :
    (fallbackPostDetail (fun _ => some "/My Post!/".data) none "u".data
        ⟨"Dr. Diet".data, "dr-diet".data, "https://b/".data⟩).title =
      "my-post-".data ∧
    (fallbackPostDetail (fun _ => some "/My Post!/".data) none "u".data
        ⟨"Dr. Diet".data, "dr-diet".data, "https://b/".data⟩).doctorSection =
      "dr-diet".data ∧
    (∀ c ∈ "my-post-".data, isSlugChar c = true) := by
  obtain ⟨-, -, -, -, -, -, -, -, -, hTitle, -, -, hDoc, -, -, -, hChars, -⟩ :=
    claim_C8 (fun _ => some "/My Post!/".data) none "u".data
      ⟨"Dr. Diet".data, "dr-diet".data, "https://b/".data⟩
  refine ⟨?_, ?_, ?_⟩
  · rw [hTitle (fun t h => Option.noConfusion h)]; rfl
  · rw [hDoc (fun t h => Option.noConfusion h)]
  · exact hChars (.str "u".data) "my-post-".data rfl

theorem procOf_nil : procOf [] = [] := rfl

theorem savedOf_nil : savedOf [] = [] := rfl

theorem attemptUrlsOf_nil : attemptUrlsOf [] = [] := rfl

theorem attemptLoop_facts (env : Env) (u : List Char) :
    ∀ fuel attempt st,
      (attemptLoop env u fuel attempt st).2.1.seen = st.seen ∧
      (attemptLoop env u fuel attempt st).2.1.catIdx = st.catIdx ∧
      procOf (attemptLoop env u fuel attempt st).2.2 = [] ∧
      savedOf (attemptLoop env u fuel attempt st).2.2 = [] ∧
      (attemptLoop env u fuel attempt st).2.1.detIdx ≤ st.detIdx + fuel ∧
      (attemptUrlsOf (attemptLoop env u fuel attempt st).2.2).length ≤ fuel ∧
      (∀ v ∈ attemptUrlsOf (attemptLoop env u fuel attempt st).2.2, v = u) ∧
      ((attemptLoop env u fuel attempt st).2.1.sessionHealthy = true →
        st.sessionHealthy = true) ∧
      (st.report.sectionStatus = .sessionFailed →
        (attemptLoop env u fuel attempt st).2.1.report.sectionStatus =
          .sessionFailed) ∧
      ((attemptLoop env u fuel attempt st).2.1.sessionHealthy = false →
        st.sessionHealthy = false ∨
          (attemptLoop env u fuel attempt st).2.1.report.sectionStatus =
            .sessionFailed) := by
  intro fuel
  induction fuel with
  | zero =>
    intro attempt st
    simp only [attemptLoop]
    refine ⟨trivial, trivial, rfl, rfl, by omega, by simp [attemptUrlsOf],
      by simp [attemptUrlsOf], fun h => h, fun h => h, fun h => Or.inl h⟩
  | succ n ih =>
    intro attempt st
    rcases hd : env.detail st.detIdx with d | ⟨isSess, et⟩
    · simp only [attemptLoop, hd]
      refine ⟨trivial, trivial, rfl, rfl, by omega, by simp [attemptUrlsOf],
        by simp [attemptUrlsOf], fun h => h, fun h => h, fun h => Or.inl h⟩
    · simp only [attemptLoop, hd]
      by_cases h1 : (isSess && attempt == maxAttempts) = true
      · simp only [h1, if_true]
        by_cases h2 : SESSION_ERROR_POST_THRESHOLD ≤ st.consecutiveSessionErrors + 1
        · simp only [if_pos h2]
          refine ⟨trivial, trivial, rfl, rfl, by omega, by simp [attemptUrlsOf],
            by simp [attemptUrlsOf], ?_, fun _ => trivial, fun _ => Or.inr trivial⟩
          intro h
          exact absurd h (by simp)
        · simp only [if_neg h2]
          refine ⟨trivial, trivial, rfl, rfl, by omega, by simp [attemptUrlsOf],
            by simp [attemptUrlsOf], fun h => h, fun h => h, fun h => Or.inl h⟩
      · simp only [h1, if_false, Bool.false_eq_true]
        by_cases h3 : (!isSess || attempt == maxAttempts) = true
        · simp only [h3, if_true]
          refine ⟨trivial, trivial, rfl, rfl, by omega, by simp [attemptUrlsOf],
            by simp [attemptUrlsOf], fun h => h, fun h => h, fun h => Or.inl h⟩
        · simp only [h3, if_false, Bool.false_eq_true]
          obtain ⟨hseen, hcat, hproc, hsaved, hdet, hlen, hall, hhealth, hkeep,
            hflip⟩ := ih (attempt + 1)
            { st with
              detIdx := st.detIdx + 1,
              report := { st.report with
                errors := bumpError st.report.errors et } }
          refine ⟨by simpa using hseen, by simpa using hcat, ?_, ?_, ?_, ?_,
        ?_, ?_, ?_, ?_⟩
          · simpa [procOf] using hproc
          · simpa [savedOf] using hsaved
          · refine Nat.le_trans hdet ?_
            show st.detIdx + 1 + n ≤ st.detIdx + (n + 1)
            omega
          · simp only [attemptUrlsOf, List.filterMap_cons] at hlen ⊢
            simpa using hlen
          · intro v hv
            simp only [attemptUrlsOf, List.filterMap_cons, List.mem_cons] at hv
            rcases hv with h | h
            · exact h
            · exact hall v (by simpa [attemptUrlsOf] using h)
          · intro h
            exact hhealth h
          · intro h
            exact hkeep (by simpa using h)
          · intro h
            rcases hflip h with h' | h'
            · exact Or.inl (by simpa using h')
            · exact Or.inr h'

theorem procOf_append (xs ys : List Event) :
    procOf (xs ++ ys) = procOf xs ++ procOf ys := by
  simp [procOf]

theorem attemptUrlsOf_append (xs ys : List Event) :
    attemptUrlsOf (xs ++ ys) = attemptUrlsOf xs ++ attemptUrlsOf ys := by
  simp [attemptUrlsOf]

theorem savedOf_append (xs ys : List Event) :
    savedOf (xs ++ ys) = savedOf xs ++ savedOf ys := by
  simp [savedOf]

theorem procOf_cons (e : Event) (evs : List Event) :
    procOf (e :: evs) =
      (match e with
        | .processUrl u => [u]
        | _ => []) ++ procOf evs := by
  cases e <;> simp [procOf]

theorem attemptUrlsOf_cons (e : Event) (evs : List Event) :
    attemptUrlsOf (e :: evs) =
      (match e with
        | .detailAttempt u _ => [u]
        | _ => []) ++ attemptUrlsOf evs := by
  cases e <;> simp [attemptUrlsOf]

theorem savedOf_cons (e : Event) (evs : List Event) :
    savedOf (e :: evs) =
      (match e with
        | .savedRecord r => [r]
        | _ => []) ++ savedOf evs := by
  cases e <;> simp [savedOf]

theorem postsLoop_facts (rt : JsRt) (env : Env) (sec : Section) :
    ∀ posts st,
      (∀ x ∈ st.seen, x ∈ (postsLoop rt env sec posts st).2.1.seen) ∧
      (postsLoop rt env sec posts st).2.1.catIdx = st.catIdx ∧
      ((postsLoop rt env sec posts st).2.1.sessionHealthy = true →
        st.sessionHealthy = true) ∧
      (st.report.sectionStatus = .sessionFailed →
        (postsLoop rt env sec posts st).2.1.report.sectionStatus =
          .sessionFailed) ∧
      ((postsLoop rt env sec posts st).2.1.sessionHealthy = false →
        st.sessionHealthy = false ∨
          (postsLoop rt env sec posts st).2.1.report.sectionStatus =
            .sessionFailed) ∧
      (procOf (postsLoop rt env sec posts st).2.2).Nodup ∧
      (∀ v ∈ procOf (postsLoop rt env sec posts st).2.2,
        v ∉ st.seen ∧ v ∈ (postsLoop rt env sec posts st).2.1.seen) ∧
      (∀ v ∈ attemptUrlsOf (postsLoop rt env sec posts st).2.2,
        v ∈ procOf (postsLoop rt env sec posts st).2.2) ∧
      (st.sessionHealthy = false → postsLoop rt env sec posts st = (0, st, [])) := by
  intro posts
  induction posts with
  | nil =>
    intro st
    refine ⟨fun x hx => hx, rfl, fun h => h, fun h => h, fun h => Or.inl h,
      by simp [postsLoop, procOf], by simp [postsLoop, procOf],
      by simp [postsLoop, attemptUrlsOf], fun _ => rfl⟩
  | cons summary rest ih =>
    intro st
    by_cases hH : st.sessionHealthy = true
    case neg =>
      have hH' : st.sessionHealthy = false := by
        simpa using hH
      have hred : postsLoop rt env sec (summary :: rest) st = (0, st, []) := by
        rw [postsLoop, if_pos (by simp [hH'])]
      rw [hred]
      exact ⟨fun x hx => hx, rfl, fun h => h, fun h => h, fun h => Or.inl h,
        by simp [procOf], by simp [procOf], by simp [attemptUrlsOf], fun _ => rfl⟩
    case pos =>
      by_cases hV : isValidPostUrl summary.url = true
      case neg =>
        have hred : postsLoop rt env sec (summary :: rest) st =
            ((postsLoop rt env sec rest st).1, (postsLoop rt env sec rest st).2.1,
              .skipInvalid summary.url :: (postsLoop rt env sec rest st).2.2) := by
          rw [postsLoop, if_neg (by simp [hH]), if_pos (by simp [hV])]
        rw [hred]
        obtain ⟨s1, s2, s3, s4, s5, s6, s7, s8, s9⟩ := ih st
        refine ⟨s1, s2, s3, s4, s5, ?_, ?_, ?_, fun h => absurd hH (by simp [h])⟩
        · simpa [procOf] using s6
        · simpa [procOf] using s7
        · simpa [attemptUrlsOf, procOf] using s8
      case pos =>
        by_cases hS :
          normalizePostUrl rt.resolve summary.url sec.baseUrl ∈ st.seen
        case pos =>
          have hred : postsLoop rt env sec (summary :: rest) st =
              ((postsLoop rt env sec rest st).1, (postsLoop rt env sec rest st).2.1,
                .skipSeen (normalizePostUrl rt.resolve summary.url sec.baseUrl) ::
                  (postsLoop rt env sec rest st).2.2) := by
            rw [postsLoop, if_neg (by simp [hH]), if_neg (by simp [hV]),
              if_pos hS]
          rw [hred]
          obtain ⟨s1, s2, s3, s4, s5, s6, s7, s8, s9⟩ := ih st
          refine ⟨s1, s2, s3, s4, s5, ?_, ?_, ?_, fun h => absurd hH (by simp [h])⟩
          · simpa [procOf] using s6
          · simpa [procOf] using s7
          · simpa [attemptUrlsOf, procOf] using s8
        case neg =>
          rcases hA2 : attemptLoop env
              (normalizePostUrl rt.resolve summary.url sec.baseUrl) maxAttempts 1
              { st with seen := normalizePostUrl rt.resolve summary.url sec.baseUrl :: st.seen }
            with ⟨dres, stA, evA⟩
          obtain ⟨a1, a2, a3, a4, a5, a6, a7, a8, a9, a10⟩ :=
            attemptLoop_facts env
              (normalizePostUrl rt.resolve summary.url sec.baseUrl) maxAttempts 1
              { st with seen := normalizePostUrl rt.resolve summary.url sec.baseUrl :: st.seen }
          simp only [hA2] at a1 a2 a3 a4 a5 a6 a7 a8 a9 a10
          simp only [postsLoop]
          rw [if_neg (by simp [hH]), if_neg (by simp [hV]), if_neg hS]
          simp only [hA2]
          by_cases hU : stA.sessionHealthy = true
          case pos =>
            rw [if_neg (by simp [hU])]
            cases dres with
            | none =>
              dsimp only
              obtain ⟨s1, s2, s3, s4, s5, s6, s7, s8, s9⟩ := ih
                { stA with
                  report := { stA.report with
                    totalsPostsFailed := stA.report.totalsPostsFailed + 1,
                    sectionStats := { stA.report.sectionStats with
                      postsFailed := stA.report.sectionStats.postsFailed + 1 } } }
              refine ⟨?_, ?_, fun _ => hH, ?_, ?_, ?_, ?_, ?_, ?_⟩
              · intro x hx
                refine s1 x ?_
                show x ∈ stA.seen
                rw [a1]
                exact List.mem_cons_of_mem _ hx
              · exact s2.trans a2
              · intro h
                exact s4 (a9 h)
              · intro h
                rcases s5 h with h' | h'
                · rcases a10 h' with h'' | h''
                  · exact Or.inl h''
                  · exact Or.inr (s4 h'')
                · exact Or.inr h'
              · simp only [procOf_cons, procOf_append, a3]
                simp only [List.nil_append, List.singleton_append, List.nodup_cons]
                refine ⟨?_, s6⟩
                intro hmem
                refine (s7 _ hmem).1 ?_
                show (normalizePostUrl rt.resolve summary.url sec.baseUrl) ∈ stA.seen
                rw [a1]
                exact List.mem_cons_self _ _
              · intro v hv
                simp only [procOf_cons, procOf_append, a3, List.nil_append,
                  List.singleton_append, List.mem_cons] at hv
                rcases hv with rfl | hv
                · refine ⟨hS, ?_⟩
                  refine s1 _ ?_
                  show (normalizePostUrl rt.resolve summary.url sec.baseUrl) ∈ stA.seen
                  rw [a1]
                  exact List.mem_cons_self _ _
                · obtain ⟨hnot, hin⟩ := s7 v hv
                  refine ⟨?_, hin⟩
                  intro hx
                  refine hnot ?_
                  show v ∈ stA.seen
                  rw [a1]
                  exact List.mem_cons_of_mem _ hx
              · intro v hv
                simp only [attemptUrlsOf_cons, attemptUrlsOf_append,
                  List.nil_append, List.mem_append] at hv
                simp only [procOf_cons, procOf_append, a3, List.nil_append,
                  List.singleton_append, List.mem_cons]
                rcases hv with hv | hv
                · exact Or.inl (a7 v hv)
                · exact Or.inr (s8 v hv)
              · intro h
                exact absurd h (by simp [hH])
            | some d =>
              dsimp only
              obtain ⟨s1, s2, s3, s4, s5, s6, s7, s8, s9⟩ := ih
                { stA with
                  report := { stA.report with
                    totalsPostsSaved := stA.report.totalsPostsSaved + 1,
                    sectionStats := { stA.report.sectionStats with
                      postsSaved := stA.report.sectionStats.postsSaved + 1 } } }
              refine ⟨?_, ?_, fun _ => hH, ?_, ?_, ?_, ?_, ?_, ?_⟩
              · intro x hx
                refine s1 x ?_
                show x ∈ stA.seen
                rw [a1]
                exact List.mem_cons_of_mem _ hx
              · exact s2.trans a2
              · intro h
                exact s4 (a9 h)
              · intro h
                rcases s5 h with h' | h'
                · rcases a10 h' with h'' | h''
                  · exact Or.inl h''
                  · exact Or.inr (s4 h'')
                · exact Or.inr h'
              · simp only [procOf_cons, procOf_append, a3]
                simp only [List.nil_append, List.singleton_append, List.nodup_cons]
                refine ⟨?_, s6⟩
                intro hmem
                refine (s7 _ hmem).1 ?_
                show (normalizePostUrl rt.resolve summary.url sec.baseUrl) ∈ stA.seen
                rw [a1]
                exact List.mem_cons_self _ _
              · intro v hv
                simp only [procOf_cons, procOf_append, a3, List.nil_append,
                  List.singleton_append, List.mem_cons] at hv
                rcases hv with rfl | hv
                · refine ⟨hS, ?_⟩
                  refine s1 _ ?_
                  show (normalizePostUrl rt.resolve summary.url sec.baseUrl) ∈ stA.seen
                  rw [a1]
                  exact List.mem_cons_self _ _
                · obtain ⟨hnot, hin⟩ := s7 v hv
                  refine ⟨?_, hin⟩
                  intro hx
                  refine hnot ?_
                  show v ∈ stA.seen
                  rw [a1]
                  exact List.mem_cons_of_mem _ hx
              · intro v hv
                simp only [attemptUrlsOf_cons, attemptUrlsOf_append,
                  List.nil_append, List.mem_append] at hv
                simp only [procOf_cons, procOf_append, a3, List.nil_append,
                  List.singleton_append, List.mem_cons]
                rcases hv with hv | hv
                · exact Or.inl (a7 v hv)
                · exact Or.inr (s8 v hv)
              · intro h
                exact absurd h (by simp [hH])
          case neg =>
            have hU' : stA.sessionHealthy = false := by
              simpa using hU
            rw [if_pos (by simp [hU'])]
            refine ⟨?_, a2, ?_, a9, a10, ?_, ?_, ?_, ?_⟩
            · intro x hx
              rw [a1]
              exact List.mem_cons_of_mem _ hx
            · intro h
              exact absurd h (by simp [hU'])
            · simp [procOf_cons, a3]
            · intro v hv
              have hv' : v = normalizePostUrl rt.resolve summary.url sec.baseUrl := by
                simpa [procOf_cons, a3] using hv
              subst hv'
              refine ⟨hS, ?_⟩
              rw [a1]
              exact List.mem_cons_self _ _
            · intro v hv
              simp only [attemptUrlsOf_cons, List.nil_append] at hv
              have := a7 v hv
              subst this
              simp [procOf_cons, a3]
            · intro h
              exact absurd h (by simp [hH])

theorem pageLoop_facts (rt : JsRt) (env : Env) (sec : Section) (maxP : Nat) :
    ∀ fuel pageNum currentUrl st,
      (∀ x ∈ st.seen,
        x ∈ (pageLoop rt env sec maxP fuel pageNum currentUrl st).2.1.seen) ∧
      ((pageLoop rt env sec maxP fuel pageNum currentUrl st).2.1.sessionHealthy =
          true → st.sessionHealthy = true) ∧
      (st.report.sectionStatus = .sessionFailed →
        (pageLoop rt env sec maxP fuel pageNum currentUrl st).2.1.report.sectionStatus =
          .sessionFailed) ∧
      ((pageLoop rt env sec maxP fuel pageNum currentUrl st).2.1.sessionHealthy =
          false →
        st.sessionHealthy = false ∨
          (pageLoop rt env sec maxP fuel pageNum currentUrl st).2.1.report.sectionStatus =
            .sessionFailed) ∧
      (procOf (pageLoop rt env sec maxP fuel pageNum currentUrl st).2.2).Nodup ∧
      (∀ v ∈ procOf (pageLoop rt env sec maxP fuel pageNum currentUrl st).2.2,
        v ∉ st.seen ∧
          v ∈ (pageLoop rt env sec maxP fuel pageNum currentUrl st).2.1.seen) ∧
      (∀ v ∈ attemptUrlsOf (pageLoop rt env sec maxP fuel pageNum currentUrl st).2.2,
        v ∈ procOf (pageLoop rt env sec maxP fuel pageNum currentUrl st).2.2) ∧
      (st.sessionHealthy = false →
        pageLoop rt env sec maxP fuel pageNum currentUrl st = (0, st, [])) := by
  intro fuel
  induction fuel with
  | zero =>
    intro pageNum currentUrl st
    exact ⟨fun x hx => hx, fun h => h, fun h => h, fun h => Or.inl h,
      by simp [pageLoop, procOf], by simp [pageLoop, procOf],
      by simp [pageLoop, attemptUrlsOf], fun _ => rfl⟩
  | succ n ih =>
    intro pageNum currentUrl st
    rcases currentUrl with _ | url
    · exact ⟨fun x hx => hx, fun h => h, fun h => h, fun h => Or.inl h,
        by simp [pageLoop, procOf], by simp [pageLoop, procOf],
        by simp [pageLoop, attemptUrlsOf], fun _ => rfl⟩
    · by_cases hG : (decide (pageNum ≤ maxP) && st.sessionHealthy) = true
      case neg =>
        have hred : pageLoop rt env sec maxP (n + 1) pageNum (some url) st =
            (0, st, []) := by
          simp only [pageLoop]
          rw [if_neg hG]
        rw [hred]
        exact ⟨fun x hx => hx, fun h => h, fun h => h, fun h => Or.inl h,
          by simp [procOf], by simp [procOf], by simp [attemptUrlsOf],
          fun _ => rfl⟩
      case pos =>
        have hH : st.sessionHealthy = true := by
          have hG' := hG
          simp only [Bool.and_eq_true] at hG'
          exact hG'.2
        rcases hc : env.category st.catIdx with ⟨posts, nextPageUrl⟩ | sessErr
        case err =>
          simp only [pageLoop]
          rw [if_pos hG]
          simp only [hc]
          cases sessErr with
          | true =>
            simp only [if_pos rfl]
            refine ⟨fun x hx => hx, ?_, fun _ => rfl, fun _ => Or.inr rfl,
              by simp [procOf], by simp [procOf], by simp [attemptUrlsOf], ?_⟩
            · intro h
              exact absurd h (by simp)
            · intro h
              exact absurd h (by simp [hH])
          | false =>
            simp only [Bool.false_eq_true, if_false]
            refine ⟨fun x hx => hx, fun _ => hH, fun h => h, fun h => Or.inl h,
              by simp [procOf], by simp [procOf], by simp [attemptUrlsOf], ?_⟩
            intro h
            exact absurd h (by simp [hH])
        case ok =>
          rcases hP : postsLoop rt env sec posts
              { st with
                catIdx := st.catIdx + 1,
                report := { st.report with
                  totalsCategoryPagesVisited :=
                    st.report.totalsCategoryPagesVisited + 1,
                  totalsPostsDiscovered :=
                    st.report.totalsPostsDiscovered + posts.length,
                  sectionStats := { st.report.sectionStats with
                    pagesVisited := st.report.sectionStats.pagesVisited + 1,
                    postsDiscovered :=
                      st.report.sectionStats.postsDiscovered + posts.length } } }
            with ⟨np, stP, evP⟩
          obtain ⟨p1, p2, p3, p4, p5, p6, p7, p8, p9⟩ :=
            postsLoop_facts rt env sec posts
              { st with
                catIdx := st.catIdx + 1,
                report := { st.report with
                  totalsCategoryPagesVisited :=
                    st.report.totalsCategoryPagesVisited + 1,
                  totalsPostsDiscovered :=
                    st.report.totalsPostsDiscovered + posts.length,
                  sectionStats := { st.report.sectionStats with
                    pagesVisited := st.report.sectionStats.pagesVisited + 1,
                    postsDiscovered :=
                      st.report.sectionStats.postsDiscovered + posts.length } } }
          simp only [hP] at p1 p2 p3 p4 p5 p6 p7 p8 p9
          rcases hQ : pageLoop rt env sec maxP n (pageNum + 1)
              (nextPageTarget rt.resolve sec pageNum nextPageUrl posts.length) stP
            with ⟨nq, stQ, evQ⟩
          obtain ⟨q1, q2, q3, q4, q5, q6, q7, q8⟩ := ih (pageNum + 1)
            (nextPageTarget rt.resolve sec pageNum nextPageUrl posts.length) stP
          simp only [hQ] at q1 q2 q3 q4 q5 q6 q7 q8
          have hdbg : procOf
              (if posts.isEmpty = true then [Event.debugExtract url] else []) = [] := by
            split <;> rfl
          have hdbga : attemptUrlsOf
              (if posts.isEmpty = true then [Event.debugExtract url] else []) = [] := by
            split <;> rfl
          simp only [pageLoop]
          rw [if_pos hG]
          simp only [hc, hP, hQ]
          refine ⟨?_, fun _ => hH, ?_, ?_, ?_, ?_, ?_, ?_⟩
          · intro x hx
            exact q1 x (p1 x hx)
          · intro h
            exact q3 (p4 h)
          · intro h
            rcases q4 h with h' | h'
            · rcases p5 h' with h'' | h''
              · exact absurd h'' (by simp [hH])
              · exact Or.inr (q3 h'')
            · exact Or.inr h'
          · simp only [procOf_cons, procOf_append, hdbg, List.nil_append]
            rw [List.nodup_append]
            refine ⟨p6, q5, ?_⟩
            intro a ha hb
            exact (q6 a hb).1 ((p7 a ha).2)
          · intro v hv
            simp only [procOf_cons, procOf_append, hdbg, List.nil_append,
              List.mem_append] at hv
            rcases hv with hv | hv
            · exact ⟨(p7 v hv).1, q1 v (p7 v hv).2⟩
            · refine ⟨?_, (q6 v hv).2⟩
              intro hx
              exact (q6 v hv).1 (p1 v hx)
          · intro v hv
            simp only [attemptUrlsOf_cons, attemptUrlsOf_append, hdbga,
              List.nil_append, List.mem_append] at hv
            simp only [procOf_cons, procOf_append, hdbg, List.nil_append,
              List.mem_append]
            rcases hv with hv | hv
            · exact Or.inl (p8 v hv)
            · exact Or.inr (q7 v hv)
          · intro h
            exact absurd h (by simp [hH])


theorem attemptLoop_report_indep (env : Env) (u : List Char) :
    ∀ fuel attempt (s t : St), s.seen = t.seen →
      s.consecutiveSessionErrors = t.consecutiveSessionErrors →
      s.sessionHealthy = t.sessionHealthy → s.catIdx = t.catIdx →
      s.detIdx = t.detIdx →
      (attemptLoop env u fuel attempt s).1 = (attemptLoop env u fuel attempt t).1 ∧
      (attemptLoop env u fuel attempt s).2.1.seen =
        (attemptLoop env u fuel attempt t).2.1.seen ∧
      (attemptLoop env u fuel attempt s).2.1.consecutiveSessionErrors =
        (attemptLoop env u fuel attempt t).2.1.consecutiveSessionErrors ∧
      (attemptLoop env u fuel attempt s).2.1.sessionHealthy =
        (attemptLoop env u fuel attempt t).2.1.sessionHealthy ∧
      (attemptLoop env u fuel attempt s).2.1.catIdx =
        (attemptLoop env u fuel attempt t).2.1.catIdx ∧
      (attemptLoop env u fuel attempt s).2.1.detIdx =
        (attemptLoop env u fuel attempt t).2.1.detIdx ∧
      (attemptLoop env u fuel attempt s).2.2 = (attemptLoop env u fuel attempt t).2.2 := by
  intro fuel
  induction fuel with
  | zero =>
    intro attempt s t h1 h2 h3 h4 h5
    exact ⟨rfl, h1, h2, h3, h4, h5, rfl⟩
  | succ n ih =>
    intro attempt s t h1 h2 h3 h4 h5
    rcases hd : env.detail t.detIdx with d | ⟨isSess, et⟩
    · simp only [attemptLoop, h5, hd]
      refine ⟨?_, ?_, ?_, ?_, ?_, ?_, ?_⟩ <;>
        first
        | trivial
        | exact h1
        | exact h2
        | exact h3
        | exact h4
        | rw [h2]
        | rw [h5]
    · simp only [attemptLoop, h5, hd]
      by_cases hc1 : (isSess && attempt == maxAttempts) = true
      · rw [if_pos hc1, if_pos hc1]
        by_cases hc2 : SESSION_ERROR_POST_THRESHOLD ≤
            t.consecutiveSessionErrors + 1
        · rw [if_pos (by rw [h2]; exact hc2), if_pos hc2]
          refine ⟨?_, ?_, ?_, ?_, ?_, ?_, ?_⟩ <;>
            first
            | trivial
            | exact h1
            | exact h2
            | exact h3
            | exact h4
            | rw [h2]
            | rw [h5]
        · rw [if_neg (by rw [h2]; exact hc2), if_neg hc2]
          refine ⟨?_, ?_, ?_, ?_, ?_, ?_, ?_⟩ <;>
            first
            | trivial
            | exact h1
            | exact h2
            | exact h3
            | exact h4
            | rw [h2]
            | rw [h5]
      · rw [if_neg hc1, if_neg hc1]
        by_cases hc3 : (!isSess || attempt == maxAttempts) = true
        · rw [if_pos hc3, if_pos hc3]
          refine ⟨?_, ?_, ?_, ?_, ?_, ?_, ?_⟩ <;>
            first
            | trivial
            | exact h1
            | exact h2
            | exact h3
            | exact h4
            | rw [h2]
            | rw [h5]
        · rw [if_neg hc3, if_neg hc3]
          obtain ⟨i1, i2, i3, i4, i5, i6, i7⟩ := ih (attempt + 1)
            { s with
              detIdx := t.detIdx + 1,
              report := { s.report with errors := bumpError s.report.errors et } }
            { t with
              detIdx := t.detIdx + 1,
              report := { t.report with errors := bumpError t.report.errors et } }
            h1 h2 h3 h4 rfl
          refine ⟨i1, i2, i3, i4, i5, i6, ?_⟩
          rw [i7]


theorem not_bnot_true {b : Bool} (h : b = true) : ¬ ((!b) = true) := by
  simp [h]

theorem bnot_true {b : Bool} (h : b = false) : (!b) = true := by
  simp [h]

theorem postsLoop_report_indep (rt : JsRt) (env : Env) (sec : Section) :
    ∀ posts (s t : St), s.seen = t.seen →
      s.consecutiveSessionErrors = t.consecutiveSessionErrors →
      s.sessionHealthy = t.sessionHealthy → s.catIdx = t.catIdx →
      s.detIdx = t.detIdx →
      (postsLoop rt env sec posts s).1 = (postsLoop rt env sec posts t).1 ∧
      (postsLoop rt env sec posts s).2.1.seen =
        (postsLoop rt env sec posts t).2.1.seen ∧
      (postsLoop rt env sec posts s).2.1.consecutiveSessionErrors =
        (postsLoop rt env sec posts t).2.1.consecutiveSessionErrors ∧
      (postsLoop rt env sec posts s).2.1.sessionHealthy =
        (postsLoop rt env sec posts t).2.1.sessionHealthy ∧
      (postsLoop rt env sec posts s).2.1.catIdx =
        (postsLoop rt env sec posts t).2.1.catIdx ∧
      (postsLoop rt env sec posts s).2.1.detIdx =
        (postsLoop rt env sec posts t).2.1.detIdx ∧
      (postsLoop rt env sec posts s).2.2 = (postsLoop rt env sec posts t).2.2 := by
  intro posts
  induction posts with
  | nil =>
    intro s t h1 h2 h3 h4 h5
    exact ⟨rfl, h1, h2, h3, h4, h5, rfl⟩
  | cons summary rest ih =>
    intro s t h1 h2 h3 h4 h5
    by_cases hH : t.sessionHealthy = true
    case neg =>
      have hH' : t.sessionHealthy = false := by
        simpa using hH
      have hs : s.sessionHealthy = false := by
        rw [h3]; exact hH'
      have e1 : postsLoop rt env sec (summary :: rest) s = (0, s, []) := by
        rw [postsLoop, if_pos (by simp [hs])]
      have e2 : postsLoop rt env sec (summary :: rest) t = (0, t, []) := by
        rw [postsLoop, if_pos (by simp [hH'])]
      rw [e1, e2]
      exact ⟨rfl, h1, h2, h3, h4, h5, rfl⟩
    case pos =>
      have hs : s.sessionHealthy = true := by
        rw [h3]; exact hH
      by_cases hV : isValidPostUrl summary.url = true
      case neg =>
        have e1 : postsLoop rt env sec (summary :: rest) s =
            ((postsLoop rt env sec rest s).1, (postsLoop rt env sec rest s).2.1,
              .skipInvalid summary.url :: (postsLoop rt env sec rest s).2.2) := by
          rw [postsLoop, if_neg (by simp [hs]), if_pos (by simp [hV])]
        have e2 : postsLoop rt env sec (summary :: rest) t =
            ((postsLoop rt env sec rest t).1, (postsLoop rt env sec rest t).2.1,
              .skipInvalid summary.url :: (postsLoop rt env sec rest t).2.2) := by
          rw [postsLoop, if_neg (by simp [hH]), if_pos (by simp [hV])]
        rw [e1, e2]
        obtain ⟨i1, i2, i3, i4, i5, i6, i7⟩ := ih s t h1 h2 h3 h4 h5
        exact ⟨i1, i2, i3, i4, i5, i6, by rw [i7]⟩
      case pos =>
        by_cases hS : normalizePostUrl rt.resolve summary.url sec.baseUrl ∈ t.seen
        case pos =>
          have hSs : normalizePostUrl rt.resolve summary.url sec.baseUrl ∈ s.seen := by
            rw [h1]; exact hS
          have e1 : postsLoop rt env sec (summary :: rest) s =
              ((postsLoop rt env sec rest s).1, (postsLoop rt env sec rest s).2.1,
                .skipSeen (normalizePostUrl rt.resolve summary.url sec.baseUrl) ::
                  (postsLoop rt env sec rest s).2.2) := by
            rw [postsLoop, if_neg (by simp [hs]), if_neg (by simp [hV]), if_pos hSs]
          have e2 : postsLoop rt env sec (summary :: rest) t =
              ((postsLoop rt env sec rest t).1, (postsLoop rt env sec rest t).2.1,
                .skipSeen (normalizePostUrl rt.resolve summary.url sec.baseUrl) ::
                  (postsLoop rt env sec rest t).2.2) := by
            rw [postsLoop, if_neg (by simp [hH]), if_neg (by simp [hV]), if_pos hS]
          rw [e1, e2]
          obtain ⟨i1, i2, i3, i4, i5, i6, i7⟩ := ih s t h1 h2 h3 h4 h5
          exact ⟨i1, i2, i3, i4, i5, i6, by rw [i7]⟩
        case neg =>
          have hSs : normalizePostUrl rt.resolve summary.url sec.baseUrl ∉ s.seen := by
            rw [h1]; exact hS
          obtain ⟨i1, i2, i3, i4, i5, i6, i7⟩ :=
            attemptLoop_report_indep env
              (normalizePostUrl rt.resolve summary.url sec.baseUrl) maxAttempts 1
              { s with seen := normalizePostUrl rt.resolve summary.url sec.baseUrl :: s.seen }
              { t with seen := normalizePostUrl rt.resolve summary.url sec.baseUrl :: t.seen }
              (by rw [h1]) h2 h3 h4 h5
          rcases hA : attemptLoop env
              (normalizePostUrl rt.resolve summary.url sec.baseUrl) maxAttempts 1
              { s with seen := normalizePostUrl rt.resolve summary.url sec.baseUrl :: s.seen }
            with ⟨dS, sA, eS⟩
          rcases hB : attemptLoop env
              (normalizePostUrl rt.resolve summary.url sec.baseUrl) maxAttempts 1
              { t with seen := normalizePostUrl rt.resolve summary.url sec.baseUrl :: t.seen }
            with ⟨dT, tA, eT⟩
          simp only [hA, hB] at i1 i2 i3 i4 i5 i6 i7
          simp only [postsLoop]
          rw [if_neg (not_bnot_true hs)]
          rw [if_neg (not_bnot_true hH)]
          rw [if_neg (not_bnot_true hV)]
          rw [if_neg (not_bnot_true hV)]
          rw [if_neg hSs, if_neg hS]
          simp only [hA, hB]
          by_cases hU : tA.sessionHealthy = true
          case neg =>
            have hU' : tA.sessionHealthy = false := by
              simpa using hU
            have hUs : sA.sessionHealthy = false := by
              rw [i4]; exact hU'
            rw [if_pos (bnot_true hUs), if_pos (bnot_true hU')]
            exact ⟨rfl, i2, i3, i4, i5, i6, by rw [i7]⟩
          case pos =>
            have hUs : sA.sessionHealthy = true := by
              rw [i4]; exact hU
            rw [if_neg (not_bnot_true hUs), if_neg (not_bnot_true hU)]
            rw [i1]
            cases dT with
            | none =>
              dsimp only
              obtain ⟨j1, j2, j3, j4, j5, j6, j7⟩ := ih
                { sA with
                  report := { sA.report with
                    totalsPostsFailed := sA.report.totalsPostsFailed + 1,
                    sectionStats := { sA.report.sectionStats with
                      postsFailed := sA.report.sectionStats.postsFailed + 1 } } }
                { tA with
                  report := { tA.report with
                    totalsPostsFailed := tA.report.totalsPostsFailed + 1,
                    sectionStats := { tA.report.sectionStats with
                      postsFailed := tA.report.sectionStats.postsFailed + 1 } } }
                i2 i3 i4 i5 i6
              exact ⟨j1, j2, j3, j4, j5, j6, by rw [i7, j7]⟩
            | some d =>
              dsimp only
              obtain ⟨j1, j2, j3, j4, j5, j6, j7⟩ := ih
                { sA with
                  report := { sA.report with
                    totalsPostsSaved := sA.report.totalsPostsSaved + 1,
                    sectionStats := { sA.report.sectionStats with
                      postsSaved := sA.report.sectionStats.postsSaved + 1 } } }
                { tA with
                  report := { tA.report with
                    totalsPostsSaved := tA.report.totalsPostsSaved + 1,
                    sectionStats := { tA.report.sectionStats with
                      postsSaved := tA.report.sectionStats.postsSaved + 1 } } }
                i2 i3 i4 i5 i6
              exact ⟨by rw [j1], j2, j3, j4, j5, j6, by rw [i7, j7]⟩

theorem pageLoop_report_indep (rt : JsRt) (env : Env) (sec : Section) (maxP : Nat) :
    ∀ fuel pageNum currentUrl (s t : St), s.seen = t.seen →
      s.consecutiveSessionErrors = t.consecutiveSessionErrors →
      s.sessionHealthy = t.sessionHealthy → s.catIdx = t.catIdx →
      s.detIdx = t.detIdx →
      (pageLoop rt env sec maxP fuel pageNum currentUrl s).1 =
        (pageLoop rt env sec maxP fuel pageNum currentUrl t).1 ∧
      (pageLoop rt env sec maxP fuel pageNum currentUrl s).2.1.seen =
        (pageLoop rt env sec maxP fuel pageNum currentUrl t).2.1.seen ∧
      (pageLoop rt env sec maxP fuel pageNum currentUrl s).2.1.consecutiveSessionErrors =
        (pageLoop rt env sec maxP fuel pageNum currentUrl t).2.1.consecutiveSessionErrors ∧
      (pageLoop rt env sec maxP fuel pageNum currentUrl s).2.1.sessionHealthy =
        (pageLoop rt env sec maxP fuel pageNum currentUrl t).2.1.sessionHealthy ∧
      (pageLoop rt env sec maxP fuel pageNum currentUrl s).2.1.catIdx =
        (pageLoop rt env sec maxP fuel pageNum currentUrl t).2.1.catIdx ∧
      (pageLoop rt env sec maxP fuel pageNum currentUrl s).2.1.detIdx =
        (pageLoop rt env sec maxP fuel pageNum currentUrl t).2.1.detIdx ∧
      (pageLoop rt env sec maxP fuel pageNum currentUrl s).2.2 =
        (pageLoop rt env sec maxP fuel pageNum currentUrl t).2.2 := by
  intro fuel
  induction fuel with
  | zero =>
    intro pageNum currentUrl s t h1 h2 h3 h4 h5
    exact ⟨rfl, h1, h2, h3, h4, h5, rfl⟩
  | succ n ih =>
    intro pageNum currentUrl s t h1 h2 h3 h4 h5
    rcases currentUrl with _ | url
    · exact ⟨rfl, h1, h2, h3, h4, h5, rfl⟩
    · by_cases hG : (decide (pageNum ≤ maxP) && t.sessionHealthy) = true
      case neg =>
        have hGs : ¬ ((decide (pageNum ≤ maxP) && s.sessionHealthy) = true) := by
          rw [h3]; exact hG
        have e1 : pageLoop rt env sec maxP (n + 1) pageNum (some url) s =
            (0, s, []) := by
          simp only [pageLoop]
          rw [if_neg hGs]
        have e2 : pageLoop rt env sec maxP (n + 1) pageNum (some url) t =
            (0, t, []) := by
          simp only [pageLoop]
          rw [if_neg hG]
        rw [e1, e2]
        exact ⟨rfl, h1, h2, h3, h4, h5, rfl⟩
      case pos =>
        have hGs : (decide (pageNum ≤ maxP) && s.sessionHealthy) = true := by
          rw [h3]; exact hG
        simp only [pageLoop]
        rw [if_pos hGs, if_pos hG]
        rw [h4]
        rcases hc : env.category t.catIdx with ⟨posts, nextPageUrl⟩ | sessErr
        case err =>
          simp only [hc]
          cases sessErr with
          | true =>
            simp only [reduceIte]
            refine ⟨?_, ?_, ?_, ?_, ?_, ?_, ?_⟩ <;>
              first
              | trivial
              | exact h1
              | exact h2
              | exact h3
              | exact h5
          | false =>
            simp only [Bool.false_eq_true, reduceIte]
            refine ⟨?_, ?_, ?_, ?_, ?_, ?_, ?_⟩ <;>
              first
              | trivial
              | exact h1
              | exact h2
              | exact h3
              | exact h5
        case ok =>
          simp only [hc]
          obtain ⟨p1, p2, p3, p4, p5, p6, p7⟩ :=
            postsLoop_report_indep rt env sec posts
              { s with
                catIdx := t.catIdx + 1,
                report := { s.report with
                  totalsCategoryPagesVisited :=
                    s.report.totalsCategoryPagesVisited + 1,
                  totalsPostsDiscovered :=
                    s.report.totalsPostsDiscovered + posts.length,
                  sectionStats := { s.report.sectionStats with
                    pagesVisited := s.report.sectionStats.pagesVisited + 1,
                    postsDiscovered :=
                      s.report.sectionStats.postsDiscovered + posts.length } } }
              { t with
                catIdx := t.catIdx + 1,
                report := { t.report with
                  totalsCategoryPagesVisited :=
                    t.report.totalsCategoryPagesVisited + 1,
                  totalsPostsDiscovered :=
                    t.report.totalsPostsDiscovered + posts.length,
                  sectionStats := { t.report.sectionStats with
                    pagesVisited := t.report.sectionStats.pagesVisited + 1,
                    postsDiscovered :=
                      t.report.sectionStats.postsDiscovered + posts.length } } }
              h1 h2 h3 rfl h5
          rcases hP : postsLoop rt env sec posts
              { s with
                catIdx := t.catIdx + 1,
                report := { s.report with
                  totalsCategoryPagesVisited :=
                    s.report.totalsCategoryPagesVisited + 1,
                  totalsPostsDiscovered :=
                    s.report.totalsPostsDiscovered + posts.length,
                  sectionStats := { s.report.sectionStats with
                    pagesVisited := s.report.sectionStats.pagesVisited + 1,
                    postsDiscovered :=
                      s.report.sectionStats.postsDiscovered + posts.length } } }
            with ⟨npS, stPS, evPS⟩
          rcases hQ : postsLoop rt env sec posts
              { t with
                catIdx := t.catIdx + 1,
                report := { t.report with
                  totalsCategoryPagesVisited :=
                    t.report.totalsCategoryPagesVisited + 1,
                  totalsPostsDiscovered :=
                    t.report.totalsPostsDiscovered + posts.length,
                  sectionStats := { t.report.sectionStats with
                    pagesVisited := t.report.sectionStats.pagesVisited + 1,
                    postsDiscovered :=
                      t.report.sectionStats.postsDiscovered + posts.length } } }
            with ⟨npT, stPT, evPT⟩
          simp only [hP, hQ] at p1 p2 p3 p4 p5 p6 p7
          simp only [hP, hQ]
          obtain ⟨q1, q2, q3, q4, q5, q6, q7⟩ := ih (pageNum + 1)
            (nextPageTarget rt.resolve sec pageNum nextPageUrl posts.length)
            stPS stPT p2 p3 p4 p5 p6
          refine ⟨by rw [p1, q1], q2, q3, q4, q5, q6, by rw [p7, q7]⟩

theorem attemptLoop_ok (env : Env) (u : List Char) (fuel attempt : Nat)
    (st : St) (d : PostDetail) (h : env.detail st.detIdx = .ok d) :
    attemptLoop env u (fuel + 1) attempt st =
      (some d,
        { st with detIdx := st.detIdx + 1, consecutiveSessionErrors := 0 },
        [.detailAttempt u attempt]) := by
  simp [attemptLoop, h]

theorem attemptLoop_nonSess (env : Env) (u : List Char) (fuel attempt : Nat)
    (st : St) (et : List Char) (h : env.detail st.detIdx = .err false et) :
    attemptLoop env u (fuel + 1) attempt st =
      (none,
        { st with
          detIdx := st.detIdx + 1,
          report := { st.report with
            errors := bumpError st.report.errors et } },
        [.detailAttempt u attempt]) := by
  simp [attemptLoop, h]

theorem attemptLoop_allSessErr_lt (env : Env) (u : List Char) (st : St)
    (e0 e1 e2 : List Char)
    (h0 : env.detail st.detIdx = .err true e0)
    (h1 : env.detail (st.detIdx + 1) = .err true e1)
    (h2 : env.detail (st.detIdx + 1 + 1) = .err true e2)
    (hc : ¬ (SESSION_ERROR_POST_THRESHOLD ≤ st.consecutiveSessionErrors + 1)) :
    attemptLoop env u maxAttempts 1 st =
      (none,
        { st with
          detIdx := st.detIdx + 1 + 1 + 1,
          consecutiveSessionErrors := st.consecutiveSessionErrors + 1,
          report := { st.report with
            errors :=
              bumpError (bumpError (bumpError st.report.errors e0) e1) e2 } },
        [.detailAttempt u 1, .backoffWait 1000, .detailAttempt u 2,
          .backoffWait 2000, .detailAttempt u 3]) := by
  simp [attemptLoop, maxAttempts, h0, h1, h2, hc]

theorem attemptLoop_allSessErr_ge (env : Env) (u : List Char) (st : St)
    (e0 e1 e2 : List Char)
    (h0 : env.detail st.detIdx = .err true e0)
    (h1 : env.detail (st.detIdx + 1) = .err true e1)
    (h2 : env.detail (st.detIdx + 1 + 1) = .err true e2)
    (hc : SESSION_ERROR_POST_THRESHOLD ≤ st.consecutiveSessionErrors + 1) :
    attemptLoop env u maxAttempts 1 st =
      (none,
        { st with
          detIdx := st.detIdx + 1 + 1 + 1,
          consecutiveSessionErrors := st.consecutiveSessionErrors + 1,
          sessionHealthy := false,
          report := { st.report with
            errors :=
              bumpError (bumpError (bumpError st.report.errors e0) e1) e2,
            sectionStatus := .sessionFailed } },
        [.detailAttempt u 1, .backoffWait 1000, .detailAttempt u 2,
          .backoffWait 2000, .detailAttempt u 3]) := by
  simp [attemptLoop, maxAttempts, h0, h1, h2, hc]

theorem attemptLoop_sectionStats (env : Env) (u : List Char) :
    ∀ fuel attempt st,
      (attemptLoop env u fuel attempt st).2.1.report.sectionStats =
        st.report.sectionStats := by
  intro fuel
  induction fuel with
  | zero =>
    intro attempt st
    rfl
  | succ n ih =>
    intro attempt st
    rcases hd : env.detail st.detIdx with d | ⟨isSess, et⟩
    · simp only [attemptLoop, hd]
    · simp only [attemptLoop, hd]
      by_cases hc1 : (isSess && attempt == maxAttempts) = true
      · rw [if_pos hc1]
        by_cases hc2 : SESSION_ERROR_POST_THRESHOLD ≤
            st.consecutiveSessionErrors + 1
        · rw [if_pos hc2]
        · rw [if_neg hc2]
      · rw [if_neg hc1]
        by_cases hc3 : (!isSess || attempt == maxAttempts) = true
        · rw [if_pos hc3]
        · rw [if_neg hc3]
          exact ih (attempt + 1) _

theorem runSections_facts (rt : JsRt) (maxP : Nat) :
    ∀ pairs (seen : List (List Char)) (report : RunReport),
      (∀ x ∈ seen, x ∈ (runSections rt maxP pairs seen report).1) ∧
      (procOf (runSections rt maxP pairs seen report).2.2.2).Nodup ∧
      (∀ v ∈ procOf (runSections rt maxP pairs seen report).2.2.2,
        v ∉ seen ∧ v ∈ (runSections rt maxP pairs seen report).1) ∧
      (∀ v ∈ attemptUrlsOf (runSections rt maxP pairs seen report).2.2.2,
        v ∈ procOf (runSections rt maxP pairs seen report).2.2.2) := by
  intro pairs
  induction pairs with
  | nil =>
    intro seen report
    exact ⟨fun x hx => hx, by simp [runSections, procOf],
      by simp [runSections, procOf], by simp [runSections, attemptUrlsOf]⟩
  | cons pair rest ih =>
    obtain ⟨sec, env⟩ := pair
    intro seen report
    obtain ⟨g1, g2, g3, g4, g5, g6, g7, g8⟩ :=
      pageLoop_facts rt env sec maxP maxP 1 (some sec.baseUrl)
        { seen := seen, consecutiveSessionErrors := 0, sessionHealthy := true,
          catIdx := 0, detIdx := 0, report := freshSectionReport report }
    rcases hA : pageLoop rt env sec maxP maxP 1 (some sec.baseUrl)
        { seen := seen, consecutiveSessionErrors := 0, sessionHealthy := true,
          catIdx := 0, detIdx := 0, report := freshSectionReport report }
      with ⟨nA, stA, evA⟩
    simp only [hA] at g1 g2 g3 g4 g5 g6 g7 g8
    obtain ⟨i1, i2, i3, i4⟩ := ih stA.seen
      { stA.report with sectionStatus := finalSectionStatus stA.report }
    rcases hB : runSections rt maxP rest stA.seen
        { stA.report with sectionStatus := finalSectionStatus stA.report }
      with ⟨seenF, repF, stats, evR⟩
    simp only [hB] at i1 i2 i3 i4
    simp only [runSections, scrapeSection, hA, hB]
    refine ⟨?_, ?_, ?_, ?_⟩
    · intro x hx
      exact i1 x (g1 x hx)
    · rw [procOf_append, List.nodup_append]
      refine ⟨g5, i2, ?_⟩
      intro a ha hb
      exact (i3 a hb).1 ((g6 a ha).2)
    · intro v hv
      rw [procOf_append, List.mem_append] at hv
      rcases hv with hv | hv
      · exact ⟨(g6 v hv).1, i1 v (g6 v hv).2⟩
      · refine ⟨?_, (i3 v hv).2⟩
        intro hx
        exact (i3 v hv).1 (g1 v hx)
    · intro v hv
      rw [attemptUrlsOf_append, List.mem_append] at hv
      rw [procOf_append, List.mem_append]
      rcases hv with hv | hv
      · exact Or.inl (g7 v hv)
      · exact Or.inr (i4 v hv)

/-- C2: at the end of each listing iteration with 1-based page number n,
a present hint accepted by the pagination validator is followed (in
absolute form) regardless of the number of summaries; an absent or
rejected hint with at least one summary falls back to the sequential URL
`baseUrl ++ page/<n+1>/`; an absent or rejected hint with zero summaries
terminates the section's pagination. -/
theorem claim_C2 (resolve : List Char → List Char → Option (List Char))
    (sec : Section) (pageNum : Nat) (hint : Option (List Char))
    (postsCount : Nat) :
    (∀ u, hint = some u → isValidPaginationUrl u = true →
      nextPageTarget resolve sec pageNum hint postsCount =
        some (normalizePostUrl resolve u sec.baseUrl)) ∧
    ((hint = none ∨ ∃ u, hint = some u ∧ isValidPaginationUrl u = false) →
      0 < postsCount →
      nextPageTarget resolve sec pageNum hint postsCount =
        some (sec.baseUrl ++ "page/".data ++ natChars (pageNum + 1) ++ "/".data)) ∧
    ((hint = none ∨ ∃ u, hint = some u ∧ isValidPaginationUrl u = false) →
      postsCount = 0 →
      nextPageTarget resolve sec pageNum hint postsCount = none) := by
  refine ⟨?_, ?_, ?_⟩
  · rintro u rfl hv
    have hne : u ≠ [] := by
      intro h
      subst h
      simp [isValidPaginationUrl] at hv
    simp [nextPageTarget, hv, hne]
  · rintro (rfl | ⟨u, rfl, hv⟩) hp
    · simp [nextPageTarget, hp]
    · simp [nextPageTarget, hv, hp]
  · rintro (rfl | ⟨u, rfl, hv⟩) hp
    · simp [nextPageTarget, hp]
    · simp [nextPageTarget, hv, hp]

/-- Witness for C2: a valid hint is followed, an element-id hint with
results falls back to `page/2/`, and no hint with no results terminates. -/
theorem claim_C2_witness :
    nextPageTarget testRt.resolve testSection 1 (some "/b/page/7/".data) 0 =
      some "/b/page/7/".data ∧
    nextPageTarget testRt.resolve testSection 1 (some "0-35378".data) 5 =
      some "/b/page/2/".data ∧
    nextPageTarget testRt.resolve testSection 3 none 0 = none :=
  ⟨by
    have h := (claim_C2 testRt.resolve testSection 1 (some "/b/page/7/".data) 0).1
      "/b/page/7/".data rfl (by decide)
    rw [h]
    rfl,
  by
    have h := (claim_C2 testRt.resolve testSection 1 (some "0-35378".data) 5).2.1
      (Or.inr ⟨"0-35378".data, rfl, by decide⟩) (by decide)
    rw [h]
    rfl,
  (claim_C2 testRt.resolve testSection 3 none 0).2.2 (Or.inl rfl) rfl⟩

/-- C9: the crawl's decisions never depend on telemetry state - two runs
of the section crawler that differ only in the initial Run Report
contents visit the same page targets, attempt the same detail
extractions and retries, build the same seen-set and forward the same
records to the sink; the report is write-only for the core. -/
theorem claim_C9 (rt : JsRt) (env : Env) (sec : Section)
    (maxPagesPerSection : Nat) (seenUrls : List (List Char))
    (r r' : RunReport) :
    (scrapeSection rt env sec maxPagesPerSection seenUrls r).1 =
      (scrapeSection rt env sec maxPagesPerSection seenUrls r').1 ∧
    (scrapeSection rt env sec maxPagesPerSection seenUrls r).2.1.seen =
      (scrapeSection rt env sec maxPagesPerSection seenUrls r').2.1.seen ∧
    (scrapeSection rt env sec maxPagesPerSection seenUrls r).2.1.catIdx =
      (scrapeSection rt env sec maxPagesPerSection seenUrls r').2.1.catIdx ∧
    (scrapeSection rt env sec maxPagesPerSection seenUrls r).2.1.detIdx =
      (scrapeSection rt env sec maxPagesPerSection seenUrls r').2.1.detIdx ∧
    (scrapeSection rt env sec maxPagesPerSection seenUrls r).2.2 =
      (scrapeSection rt env sec maxPagesPerSection seenUrls r').2.2 := by
  obtain ⟨i1, i2, i3, i4, i5, i6, i7⟩ :=
    pageLoop_report_indep rt env sec maxPagesPerSection maxPagesPerSection 1
      (some sec.baseUrl)
      { seen := seenUrls, consecutiveSessionErrors := 0, sessionHealthy := true,
        catIdx := 0, detIdx := 0, report := r }
      { seen := seenUrls, consecutiveSessionErrors := 0, sessionHealthy := true,
        catIdx := 0, detIdx := 0, report := r' }
      rfl rfl rfl rfl rfl
  exact ⟨i1, i2, i5, i6, i7⟩

/-- C5: within one section's crawl the healthy flag is monotone (it is
never resurrected), an unhealthy state stops the page loop without any
further extraction work, a flip to unhealthy always marks the section
status session-failed so the section finishes failed rather than
complete, and a section's crawl - which always constructs its monitor
fresh - is unaffected by whatever report (and hence health history) the
previous sections left behind. -/
theorem claim_C5 :
    (∀ (rt : JsRt) (env : Env) (sec : Section) (maxP fuel pageNum : Nat)
        (currentUrl : Option (List Char)) (st : St),
      (pageLoop rt env sec maxP fuel pageNum currentUrl st).2.1.sessionHealthy =
        true → st.sessionHealthy = true) ∧
    (∀ (rt : JsRt) (env : Env) (sec : Section) (maxP fuel pageNum : Nat)
        (currentUrl : Option (List Char)) (st : St),
      st.sessionHealthy = false →
      pageLoop rt env sec maxP fuel pageNum currentUrl st = (0, st, [])) ∧
    (∀ (rt : JsRt) (env : Env) (sec : Section) (maxP : Nat)
        (seen : List (List Char)) (r : RunReport),
      (scrapeSection rt env sec maxP seen r).2.1.sessionHealthy = false →
      (scrapeSection rt env sec maxP seen r).2.1.report.sectionStatus =
        .sessionFailed ∧
      finalSectionStatus (scrapeSection rt env sec maxP seen r).2.1.report =
        .sessionFailed) ∧
    (∀ (rt : JsRt) (env : Env) (sec : Section) (maxP : Nat)
        (seen : List (List Char)) (r r' : RunReport),
      (scrapeSection rt env sec maxP seen r).2.1.sessionHealthy =
        (scrapeSection rt env sec maxP seen r').2.1.sessionHealthy ∧
      (scrapeSection rt env sec maxP seen r).2.1.consecutiveSessionErrors =
        (scrapeSection rt env sec maxP seen r').2.1.consecutiveSessionErrors) := by
  refine ⟨?_, ?_, ?_, ?_⟩
  · intro rt env sec maxP fuel pageNum currentUrl st
    exact (pageLoop_facts rt env sec maxP fuel pageNum currentUrl st).2.1
  · intro rt env sec maxP fuel pageNum currentUrl st
    exact (pageLoop_facts rt env sec maxP fuel pageNum currentUrl st).2.2.2.2.2.2.2
  · intro rt env sec maxP seen r hflip
    obtain ⟨-, -, -, g4, -⟩ :=
      pageLoop_facts rt env sec maxP maxP 1 (some sec.baseUrl)
        { seen := seen, consecutiveSessionErrors := 0, sessionHealthy := true,
          catIdx := 0, detIdx := 0, report := r }
    have hst : (scrapeSection rt env sec maxP seen r).2.1.report.sectionStatus =
        .sessionFailed := by
      rcases g4 hflip with h | h
      · exact absurd h (by simp)
      · exact h
    refine ⟨hst, ?_⟩
    rw [finalSectionStatus, hst]
    simp
  · intro rt env sec maxP seen r r'
    obtain ⟨-, -, i3, i4, -, -, -⟩ :=
      pageLoop_report_indep rt env sec maxP maxP 1 (some sec.baseUrl)
        { seen := seen, consecutiveSessionErrors := 0, sessionHealthy := true,
          catIdx := 0, detIdx := 0, report := r }
        { seen := seen, consecutiveSessionErrors := 0, sessionHealthy := true,
          catIdx := 0, detIdx := 0, report := r' }
        rfl rfl rfl rfl rfl
    exact ⟨i4, i3⟩

/-- Witness for C5 at a concrete run: the three-failing-posts scenario
flips the flag, the section is marked session-failed, and it is not
reported complete. -/
theorem claim_C5_witness :
    (scrapeSection testRt envThreeFailing testSection 1 [] emptyReport).2.1.report.sectionStatus =
      .sessionFailed ∧
    finalSectionStatus
      (scrapeSection testRt envThreeFailing testSection 1 [] emptyReport).2.1.report =
      .sessionFailed :=
  claim_C5.2.2.1 testRt envThreeFailing testSection 1 [] emptyReport rfl

/-- C4: across an entire run the Dedup Set is seeded from the persistent
store, shared by all sections, and grow-only: every seeded URL is still
in the final set, a detail extraction is started at most once per
canonical URL in the whole run, never for a seeded URL, and every
individual extraction attempt belongs to a URL that passed the dedup
check. -/
theorem claim_C4 (rt : JsRt) (maxPagesPerSection : Nat)
    (sections : List (Section × Env)) (existingUrls : List (List Char)) :
    (∀ x ∈ existingUrls,
      x ∈ (runMain rt maxPagesPerSection sections existingUrls).1) ∧
    (procOf (runMain rt maxPagesPerSection sections existingUrls).2.2.2).Nodup ∧
    (∀ v ∈ procOf (runMain rt maxPagesPerSection sections existingUrls).2.2.2,
      v ∉ existingUrls ∧
        v ∈ (runMain rt maxPagesPerSection sections existingUrls).1) ∧
    (∀ v ∈ attemptUrlsOf
        (runMain rt maxPagesPerSection sections existingUrls).2.2.2,
      v ∈ procOf (runMain rt maxPagesPerSection sections existingUrls).2.2.2) :=
  runSections_facts rt maxPagesPerSection sections existingUrls _

/-- Witness for C4: with `/p1/` seeded from the store, the run keeps it in
the set, never starts an extraction for it, and the processed URLs of the
run are pairwise distinct. -/
theorem claim_C4_witness :
    "/p1/".data ∈
      (runMain testRt 1 [(testSection, envThreeFailing)] ["/p1/".data]).1 ∧
    "/p1/".data ∉
      procOf (runMain testRt 1 [(testSection, envThreeFailing)] ["/p1/".data]).2.2.2 ∧
    (procOf (runMain testRt 1 [(testSection, envThreeFailing)] ["/p1/".data]).2.2.2).Nodup := by
  obtain ⟨h1, h2, h3, h4⟩ :=
    claim_C4 testRt 1 [(testSection, envThreeFailing)] ["/p1/".data]
  refine ⟨h1 "/p1/".data (by decide), ?_, h2⟩
  intro hmem
  exact (h3 "/p1/".data hmem).1 (by decide)

/-- C1: for a section crawl with a fresh health state, a detail URL whose
final retry attempt fails with a session error increments the
consecutive-session-error counter by one, and the counter reaching the
threshold 3 flips the healthy flag to false and marks the section
session-failed while below the threshold the flag is untouched; any
successful extraction resets the counter to zero; concretely, three
all-session-error URLs from a fresh monitor flip the flag, and after an
intervening success two further failing URLs leave the crawl healthy with
counter 2, a third new failure being required to flip it. -/
theorem claim_C1 :
    (∀ (env : Env) (u : List Char) (st : St) (e0 e1 e2 : List Char),
      env.detail st.detIdx = .err true e0 →
      env.detail (st.detIdx + 1) = .err true e1 →
      env.detail (st.detIdx + 1 + 1) = .err true e2 →
      (attemptLoop env u maxAttempts 1 st).2.1.consecutiveSessionErrors =
        st.consecutiveSessionErrors + 1 ∧
      (SESSION_ERROR_POST_THRESHOLD ≤ st.consecutiveSessionErrors + 1 →
        (attemptLoop env u maxAttempts 1 st).2.1.sessionHealthy = false ∧
        (attemptLoop env u maxAttempts 1 st).2.1.report.sectionStatus =
          .sessionFailed) ∧
      (¬ SESSION_ERROR_POST_THRESHOLD ≤ st.consecutiveSessionErrors + 1 →
        (attemptLoop env u maxAttempts 1 st).2.1.sessionHealthy =
          st.sessionHealthy)) ∧
    (∀ (env : Env) (u : List Char) (fuel attempt : Nat) (st : St)
        (d : PostDetail),
      env.detail st.detIdx = .ok d →
      (attemptLoop env u (fuel + 1) attempt st).2.1.consecutiveSessionErrors =
        0) ∧
    ((scrapeSection testRt envThreeFailing testSection 1 []
        emptyReport).2.1.sessionHealthy = false ∧
      (scrapeSection testRt envThreeFailing testSection 1 []
        emptyReport).2.1.consecutiveSessionErrors = 3 ∧
      (scrapeSection testRt envThreeFailing testSection 1 []
        emptyReport).2.1.report.sectionStatus = .sessionFailed) ∧
    ((scrapeSection testRt envRecoveredFour testSection 1 []
        emptyReport).2.1.sessionHealthy = true ∧
      (scrapeSection testRt envRecoveredFour testSection 1 []
        emptyReport).2.1.consecutiveSessionErrors = 2) ∧
    ((scrapeSection testRt envRecoveredFive testSection 1 []
        emptyReport).2.1.sessionHealthy = false ∧
      (scrapeSection testRt envRecoveredFive testSection 1 []
        emptyReport).2.1.report.sectionStatus = .sessionFailed) := by
  refine ⟨?_, ?_, ⟨rfl, rfl, rfl⟩, ⟨rfl, rfl⟩, ⟨rfl, rfl⟩⟩
  · intro env u st e0 e1 e2 h0 h1 h2
    by_cases hc : SESSION_ERROR_POST_THRESHOLD ≤
        st.consecutiveSessionErrors + 1
    · rw [attemptLoop_allSessErr_ge env u st e0 e1 e2 h0 h1 h2 hc]
      exact ⟨rfl, fun _ => ⟨rfl, rfl⟩, fun hn => absurd hc hn⟩
    · rw [attemptLoop_allSessErr_lt env u st e0 e1 e2 h0 h1 h2 hc]
      exact ⟨rfl, fun hy => absurd hy hc, fun _ => rfl⟩
  · intro env u fuel attempt st d hd
    rw [attemptLoop_ok env u fuel attempt st d hd]

/-- Witness for C1 at a concrete backend: every detail call session-errors,
so from a fresh monitor one URL's exhausted retries set the counter to 1
and leave the crawl healthy, and one successful call resets it to 0. -/
theorem claim_C1_witness :
    (attemptLoop envThreeFailing "/p1/".data maxAttempts 1
        ⟨[], 0, true, 0, 0, emptyReport⟩).2.1.consecutiveSessionErrors = 1 ∧
    (attemptLoop envThreeFailing "/p1/".data maxAttempts 1
        ⟨[], 0, true, 0, 0, emptyReport⟩).2.1.sessionHealthy = true ∧
    (attemptLoop envRecoveredFour "/u2/".data (2 + 1) 1
        ⟨[], 1, true, 0, 3, emptyReport⟩).2.1.consecutiveSessionErrors = 0 := by
  obtain ⟨ha, hb, -⟩ := claim_C1
  obtain ⟨x1, -, x3⟩ := ha envThreeFailing "/p1/".data
    ⟨[], 0, true, 0, 0, emptyReport⟩ "StagehandServerError".data
    "StagehandServerError".data "StagehandServerError".data rfl rfl rfl
  refine ⟨x1, ?_, ?_⟩
  · rw [x3 (by decide)]
  · exact hb envRecoveredFour "/u2/".data 2 1
      ⟨[], 1, true, 0, 3, emptyReport⟩ testDetail rfl

/-- C3: the per-URL retry loop makes at most 3 extraction attempts; when
every attempt session-errors the emitted trace is exactly three attempts
separated by backoffs of attempt-number times 1000 ms; a non-session
error is never retried - the loop ends after that single attempt with the
error recorded, and at the crawl level the URL is counted as a failed
detail while the loop proceeds to the remaining summaries; and a final
session error that crosses the unhealthy threshold aborts the section at
once, the remaining summaries contributing nothing to the result. -/
theorem claim_C3 :
    (∀ (env : Env) (u : List Char) (st : St),
      (attemptLoop env u maxAttempts 1 st).2.1.detIdx ≤ st.detIdx + 3 ∧
      (attemptUrlsOf (attemptLoop env u maxAttempts 1 st).2.2).length ≤ 3) ∧
    (∀ (env : Env) (u : List Char) (st : St) (e0 e1 e2 : List Char),
      env.detail st.detIdx = .err true e0 →
      env.detail (st.detIdx + 1) = .err true e1 →
      env.detail (st.detIdx + 1 + 1) = .err true e2 →
      (attemptLoop env u maxAttempts 1 st).2.2 =
        [.detailAttempt u 1, .backoffWait (1 * 1000), .detailAttempt u 2,
          .backoffWait (2 * 1000), .detailAttempt u 3]) ∧
    (∀ (env : Env) (u : List Char) (fuel attempt : Nat) (st : St)
        (et : List Char),
      env.detail st.detIdx = .err false et →
      attemptLoop env u (fuel + 1) attempt st =
        (none,
          { st with
            detIdx := st.detIdx + 1,
            report := { st.report with
              errors := bumpError st.report.errors et } },
          [.detailAttempt u attempt])) ∧
    (∀ (rt : JsRt) (env : Env) (sec : Section) (summary : Summary)
        (rest : List Summary) (st : St) (et : List Char),
      st.sessionHealthy = true →
      isValidPostUrl summary.url = true →
      normalizePostUrl rt.resolve summary.url sec.baseUrl ∉ st.seen →
      env.detail st.detIdx = .err false et →
      postsLoop rt env sec (summary :: rest) st =
        ((postsLoop rt env sec rest
            { st with
              seen := normalizePostUrl rt.resolve summary.url sec.baseUrl ::
                st.seen,
              detIdx := st.detIdx + 1,
              report := { st.report with
                errors := bumpError st.report.errors et,
                totalsPostsFailed := st.report.totalsPostsFailed + 1,
                sectionStats := { st.report.sectionStats with
                  postsFailed := st.report.sectionStats.postsFailed + 1 } } }).1,
          (postsLoop rt env sec rest
            { st with
              seen := normalizePostUrl rt.resolve summary.url sec.baseUrl ::
                st.seen,
              detIdx := st.detIdx + 1,
              report := { st.report with
                errors := bumpError st.report.errors et,
                totalsPostsFailed := st.report.totalsPostsFailed + 1,
                sectionStats := { st.report.sectionStats with
                  postsFailed := st.report.sectionStats.postsFailed + 1 } } }).2.1,
          .processUrl (normalizePostUrl rt.resolve summary.url sec.baseUrl) ::
            .detailAttempt (normalizePostUrl rt.resolve summary.url sec.baseUrl) 1 ::
            (postsLoop rt env sec rest
              { st with
                seen := normalizePostUrl rt.resolve summary.url sec.baseUrl ::
                  st.seen,
                detIdx := st.detIdx + 1,
                report := { st.report with
                  errors := bumpError st.report.errors et,
                  totalsPostsFailed := st.report.totalsPostsFailed + 1,
                  sectionStats := { st.report.sectionStats with
                    postsFailed := st.report.sectionStats.postsFailed + 1 } } }).2.2)) ∧
    (∀ (rt : JsRt) (env : Env) (sec : Section) (summary : Summary)
        (rest : List Summary) (st : St) (e0 e1 e2 : List Char),
      st.sessionHealthy = true →
      isValidPostUrl summary.url = true →
      normalizePostUrl rt.resolve summary.url sec.baseUrl ∉ st.seen →
      env.detail st.detIdx = .err true e0 →
      env.detail (st.detIdx + 1) = .err true e1 →
      env.detail (st.detIdx + 1 + 1) = .err true e2 →
      SESSION_ERROR_POST_THRESHOLD ≤ st.consecutiveSessionErrors + 1 →
      postsLoop rt env sec (summary :: rest) st =
        (0,
          { st with
            seen := normalizePostUrl rt.resolve summary.url sec.baseUrl ::
              st.seen,
            detIdx := st.detIdx + 1 + 1 + 1,
            consecutiveSessionErrors := st.consecutiveSessionErrors + 1,
            sessionHealthy := false,
            report := { st.report with
              errors :=
                bumpError (bumpError (bumpError st.report.errors e0) e1) e2,
              sectionStatus := .sessionFailed } },
          [.processUrl (normalizePostUrl rt.resolve summary.url sec.baseUrl),
            .detailAttempt (normalizePostUrl rt.resolve summary.url sec.baseUrl) 1,
            .backoffWait (1 * 1000),
            .detailAttempt (normalizePostUrl rt.resolve summary.url sec.baseUrl) 2,
            .backoffWait (2 * 1000),
            .detailAttempt (normalizePostUrl rt.resolve summary.url sec.baseUrl) 3])) := by
  refine ⟨?_, ?_, ?_, ?_, ?_⟩
  · intro env u st
    obtain ⟨-, -, -, -, a5, a6, -, -, -, -⟩ := attemptLoop_facts env u maxAttempts 1 st
    exact ⟨a5, a6⟩
  · intro env u st e0 e1 e2 h0 h1 h2
    by_cases hc : SESSION_ERROR_POST_THRESHOLD ≤
        st.consecutiveSessionErrors + 1
    · rw [attemptLoop_allSessErr_ge env u st e0 e1 e2 h0 h1 h2 hc]
    · rw [attemptLoop_allSessErr_lt env u st e0 e1 e2 h0 h1 h2 hc]
  · intro env u fuel attempt st et hd
    exact attemptLoop_nonSess env u fuel attempt st et hd
  · intro rt env sec summary rest st et hH hV hS hd
    have heq : attemptLoop env
        (normalizePostUrl rt.resolve summary.url sec.baseUrl) maxAttempts 1
        { st with
          seen := normalizePostUrl rt.resolve summary.url sec.baseUrl ::
            st.seen } =
        (none,
          { st with
            seen := normalizePostUrl rt.resolve summary.url sec.baseUrl ::
              st.seen,
            detIdx := st.detIdx + 1,
            report := { st.report with
              errors := bumpError st.report.errors et } },
          [.detailAttempt (normalizePostUrl rt.resolve summary.url sec.baseUrl) 1]) :=
      attemptLoop_nonSess env _ 2 1 _ et hd
    simp only [postsLoop]
    rw [if_neg (not_bnot_true hH), if_neg (not_bnot_true hV), if_neg hS]
    rw [heq]
    dsimp only
    rw [if_neg (not_bnot_true hH)]
    simp only [List.singleton_append]
  · intro rt env sec summary rest st e0 e1 e2 hH hV hS h0 h1 h2 hc
    have heq : attemptLoop env
        (normalizePostUrl rt.resolve summary.url sec.baseUrl) maxAttempts 1
        { st with
          seen := normalizePostUrl rt.resolve summary.url sec.baseUrl ::
            st.seen } =
        (none,
          { st with
            seen := normalizePostUrl rt.resolve summary.url sec.baseUrl ::
              st.seen,
            detIdx := st.detIdx + 1 + 1 + 1,
            consecutiveSessionErrors := st.consecutiveSessionErrors + 1,
            sessionHealthy := false,
            report := { st.report with
              errors :=
                bumpError (bumpError (bumpError st.report.errors e0) e1) e2,
              sectionStatus := .sessionFailed } },
          [.detailAttempt (normalizePostUrl rt.resolve summary.url sec.baseUrl) 1,
            .backoffWait 1000,
            .detailAttempt (normalizePostUrl rt.resolve summary.url sec.baseUrl) 2,
            .backoffWait 2000,
            .detailAttempt (normalizePostUrl rt.resolve summary.url sec.baseUrl) 3]) :=
      attemptLoop_allSessErr_ge env _ _ e0 e1 e2 h0 h1 h2 hc
    simp only [postsLoop]
    rw [if_neg (not_bnot_true hH), if_neg (not_bnot_true hV), if_neg hS]
    rw [heq]
    dsimp only
    rw [if_pos (bnot_true rfl)]

/-- Witness for C3: in the all-failing backend, one URL's retry loop
consumes exactly three detail calls and emits the attempt/backoff trace,
while a non-session error ends the attempts immediately. -/
theorem claim_C3_witness :
    (attemptLoop envThreeFailing "/p1/".data maxAttempts 1
        ⟨[], 0, true, 0, 0, emptyReport⟩).2.1.detIdx ≤ 3 ∧
    (attemptLoop envThreeFailing "/p1/".data maxAttempts 1
        ⟨[], 0, true, 0, 0, emptyReport⟩).2.2 =
      [.detailAttempt "/p1/".data 1, .backoffWait (1 * 1000),
        .detailAttempt "/p1/".data 2, .backoffWait (2 * 1000),
        .detailAttempt "/p1/".data 3] ∧
    True := by
  obtain ⟨t1, t2, -, -, -⟩ := claim_C3
  refine ⟨?_, ?_, trivial⟩
  · exact (t1 envThreeFailing "/p1/".data ⟨[], 0, true, 0, 0, emptyReport⟩).1
  · exact t2 envThreeFailing "/p1/".data ⟨[], 0, true, 0, 0, emptyReport⟩
      "StagehandServerError".data "StagehandServerError".data
      "StagehandServerError".data rfl rfl rfl

/-- Counterexample to C10 as stated: in a section whose three discovered
URLs each exhaust all retry attempts with session errors, the third URL's
failure trips the unhealthy threshold and the section aborts before its
`postsFailed` increment - all three URLs were processed and fully
attempted (nine detail calls), none was saved, the third URL is in the
seen set, yet only two are counted as failed details. -/
theorem claim_C10_counterexample :
    procOf (scrapeSection testRt envThreeFailing testSection 1 []
        emptyReport).2.2 =
      ["/p1/".data, "/p2/".data, "/p3/".data] ∧
    savedOf (scrapeSection testRt envThreeFailing testSection 1 []
        emptyReport).2.2 = [] ∧
    (scrapeSection testRt envThreeFailing testSection 1 []
        emptyReport).2.1.detIdx = 9 ∧
    "/p3/".data ∈ (scrapeSection testRt envThreeFailing testSection 1 []
        emptyReport).2.1.seen ∧
    (scrapeSection testRt envThreeFailing testSection 1 []
        emptyReport).2.1.report.sectionStats.postsFailed = 2 := by
  refine ⟨rfl, rfl, rfl, ?_, rfl⟩
  decide

/-- C10 as amended: a valid, unseen detail URL is inserted into the shared
Dedup Set before any extraction attempt and stays there whatever the
outcome; if all retry attempts fail while the monitor stays healthy, the
URL's episode forwards no record, it is counted as a failed detail and
the loop proceeds to the remaining summaries; if instead the final
session error trips the unhealthy threshold, the section aborts at once
without counting that URL; and a URL already in the set is never
processed again anywhere in the page loop. -/
theorem claim_C10_amended :
    (∀ (rt : JsRt) (env : Env) (sec : Section) (summary : Summary)
        (rest : List Summary) (st : St),
      st.sessionHealthy = true →
      isValidPostUrl summary.url = true →
      normalizePostUrl rt.resolve summary.url sec.baseUrl ∉ st.seen →
      (∃ tl, (postsLoop rt env sec (summary :: rest) st).2.2 =
        .processUrl (normalizePostUrl rt.resolve summary.url sec.baseUrl) :: tl) ∧
      normalizePostUrl rt.resolve summary.url sec.baseUrl ∈
        (postsLoop rt env sec (summary :: rest) st).2.1.seen) ∧
    (∀ (rt : JsRt) (env : Env) (sec : Section) (summary : Summary)
        (rest : List Summary) (st stA : St) (evA : List Event),
      st.sessionHealthy = true →
      isValidPostUrl summary.url = true →
      normalizePostUrl rt.resolve summary.url sec.baseUrl ∉ st.seen →
      attemptLoop env (normalizePostUrl rt.resolve summary.url sec.baseUrl)
          maxAttempts 1
          { st with
            seen := normalizePostUrl rt.resolve summary.url sec.baseUrl ::
              st.seen } =
        (none, stA, evA) →
      stA.sessionHealthy = true →
      savedOf evA = [] ∧
      postsLoop rt env sec (summary :: rest) st =
        ((postsLoop rt env sec rest
            { stA with
              report := { stA.report with
                totalsPostsFailed := stA.report.totalsPostsFailed + 1,
                sectionStats := { stA.report.sectionStats with
                  postsFailed := stA.report.sectionStats.postsFailed + 1 } } }).1,
          (postsLoop rt env sec rest
            { stA with
              report := { stA.report with
                totalsPostsFailed := stA.report.totalsPostsFailed + 1,
                sectionStats := { stA.report.sectionStats with
                  postsFailed := stA.report.sectionStats.postsFailed + 1 } } }).2.1,
          .processUrl (normalizePostUrl rt.resolve summary.url sec.baseUrl) ::
            (evA ++ (postsLoop rt env sec rest
              { stA with
                report := { stA.report with
                  totalsPostsFailed := stA.report.totalsPostsFailed + 1,
                  sectionStats := { stA.report.sectionStats with
                    postsFailed := stA.report.sectionStats.postsFailed + 1 } } }).2.2))) ∧
    (∀ (rt : JsRt) (env : Env) (sec : Section) (summary : Summary)
        (rest : List Summary) (st stA : St) (evA : List Event),
      st.sessionHealthy = true →
      isValidPostUrl summary.url = true →
      normalizePostUrl rt.resolve summary.url sec.baseUrl ∉ st.seen →
      attemptLoop env (normalizePostUrl rt.resolve summary.url sec.baseUrl)
          maxAttempts 1
          { st with
            seen := normalizePostUrl rt.resolve summary.url sec.baseUrl ::
              st.seen } =
        (none, stA, evA) →
      stA.sessionHealthy = false →
      postsLoop rt env sec (summary :: rest) st =
        (0, stA,
          .processUrl (normalizePostUrl rt.resolve summary.url sec.baseUrl) ::
            evA) ∧
      stA.report.sectionStats = st.report.sectionStats) ∧
    (∀ (rt : JsRt) (env : Env) (sec : Section) (maxP fuel pageNum : Nat)
        (currentUrl : Option (List Char)) (st : St) (v : List Char),
      v ∈ st.seen →
      v ∉ procOf (pageLoop rt env sec maxP fuel pageNum currentUrl st).2.2) := by
  refine ⟨?_, ?_, ?_, ?_⟩
  · intro rt env sec summary rest st hH hV hS
    have hex : ∃ tl, (postsLoop rt env sec (summary :: rest) st).2.2 =
        .processUrl (normalizePostUrl rt.resolve summary.url sec.baseUrl) :: tl := by
      rcases hA : attemptLoop env
          (normalizePostUrl rt.resolve summary.url sec.baseUrl) maxAttempts 1
          { st with
            seen := normalizePostUrl rt.resolve summary.url sec.baseUrl ::
              st.seen }
        with ⟨dres, stA, evA⟩
      simp only [postsLoop]
      rw [if_neg (not_bnot_true hH), if_neg (not_bnot_true hV), if_neg hS]
      simp only [hA]
      by_cases hU : stA.sessionHealthy = true
      · rw [if_neg (not_bnot_true hU)]
        cases dres with
        | none =>
          dsimp only
          exact ⟨_, rfl⟩
        | some d =>
          dsimp only
          exact ⟨_, rfl⟩
      · have hU' : stA.sessionHealthy = false := by
          simpa using hU
        rw [if_pos (bnot_true hU')]
        exact ⟨_, rfl⟩
    refine ⟨hex, ?_⟩
    obtain ⟨tl, htl⟩ := hex
    have hmem : normalizePostUrl rt.resolve summary.url sec.baseUrl ∈
        procOf (postsLoop rt env sec (summary :: rest) st).2.2 := by
      rw [htl]
      simp [procOf_cons]
    exact ((postsLoop_facts rt env sec (summary :: rest) st).2.2.2.2.2.2.1 _
      hmem).2
  · intro rt env sec summary rest st stA evA hH hV hS hA hU
    obtain ⟨-, -, -, a4, -, -, -, -, -, -⟩ :=
      attemptLoop_facts env
        (normalizePostUrl rt.resolve summary.url sec.baseUrl) maxAttempts 1
        { st with
          seen := normalizePostUrl rt.resolve summary.url sec.baseUrl ::
            st.seen }
    rw [hA] at a4
    refine ⟨a4, ?_⟩
    simp only [postsLoop]
    rw [if_neg (not_bnot_true hH), if_neg (not_bnot_true hV), if_neg hS]
    simp only [hA]
    rw [if_neg (not_bnot_true hU)]
  · intro rt env sec summary rest st stA evA hH hV hS hA hU'
    constructor
    · simp only [postsLoop]
      rw [if_neg (not_bnot_true hH), if_neg (not_bnot_true hV), if_neg hS]
      simp only [hA]
      rw [if_pos (bnot_true hU')]
    · have := attemptLoop_sectionStats env
        (normalizePostUrl rt.resolve summary.url sec.baseUrl) maxAttempts 1
        { st with
          seen := normalizePostUrl rt.resolve summary.url sec.baseUrl ::
            st.seen }
      rw [hA] at this
      exact this
  · intro rt env sec maxP fuel pageNum currentUrl st v hv hproc
    exact ((pageLoop_facts rt env sec maxP fuel pageNum currentUrl
      st).2.2.2.2.2.1 v hproc).1 hv

/-- Witness for the amended C10 in the all-failing scenario: the first
URL's episode starts with its dedup insertion, and a URL already in the
seen set is never processed by the page loop. -/
theorem claim_C10_amended_witness :
    "/p1/".data ∈
      (postsLoop testRt envThreeFailing testSection
        [testSummary "/p1/".data] ⟨[], 0, true, 0, 0, emptyReport⟩).2.1.seen ∧
    "/x/".data ∉
      procOf (pageLoop testRt envThreeFailing testSection 1 1 1
        (some "/b/".data) ⟨["/x/".data], 0, true, 0, 0, emptyReport⟩).2.2 := by
  obtain ⟨h1, -, -, h4⟩ := claim_C10_amended
  refine ⟨?_, ?_⟩
  · exact (h1 testRt envThreeFailing testSection (testSummary "/p1/".data) []
      ⟨[], 0, true, 0, 0, emptyReport⟩ rfl (by decide) (by decide)).2
  · exact h4 testRt envThreeFailing testSection 1 1 1 (some "/b/".data)
      ⟨["/x/".data], 0, true, 0, 0, emptyReport⟩ "/x/".data (by decide)

end PaulChek
